import Mathlib

/-!
Verification of the NEMDE constraint-wrangling module
======================================================

A shallow embedding of `NEMDE_constraints.py`, a module that fetches monthly
MMS archive tables (via `pandas.read_csv` over the network) and joins them to
reconstruct NEM constraint equations.  The network fetch is external: it is
modelled as an environment of per-table fetch functions, each returning either
the parsed rows of the archive for a given (month, year) or an error
(`pd.read_csv` raises on a missing or unreadable archive).

Pure data processing (row filtering, column lookups, per-row transforms, the
`sort_values` call, the backward month-by-month search loops) is translated
function by function from the source.
-/

namespace NEM

/-- Errors raised by the external fetch and by date arithmetic.
`notFound` models the HTTP 404 (`urllib.error.HTTPError`) that
`pd.read_csv` raises when the archive for a month is absent;
`transientFail` models any other network/decompression failure;
`invalidDate` models `ValueError` from `datetime`/`relativedelta`
arithmetic leaving the representable range (year < 1), and also totalises
date representations that cannot exist as Python `date` objects. -/
inductive Ferr where
  | notFound
  | transientFail
  | invalidDate
  deriving DecidableEq, Repr

/-- A Python `datetime.date`: valid objects have `1 ≤ year` and
`1 ≤ month ≤ 12` and a valid day-of-month; the structure itself is free and
invalid combinations are rejected by the date-arithmetic validity check. -/
structure PDate where
  year : Nat
  month : Nat
  day : Nat
  deriving DecidableEq, Repr

/-- Python `date` ordering: lexicographic on (year, month, day). -/
def pdLt (a b : PDate) : Bool :=
  a.year < b.year ||
    (a.year = b.year && (a.month < b.month ||
      (a.month = b.month && a.day < b.day)))

/-- Gregorian leap year, as implemented by `calendar`/`datetime`. -/
def isLeap (y : Nat) : Bool :=
  y % 4 = 0 && (y % 100 ≠ 0 || y % 400 = 0)

/-- Days in a month, as used by `dateutil` to clamp the day component. -/
def daysInMonth (y m : Nat) : Nat :=
  if m = 1 || m = 3 || m = 5 || m = 7 || m = 8 || m = 10 || m = 12 then 31
  else if m = 4 || m = 6 || m = 9 || m = 11 then 30
  else if isLeap y then 29 else 28

/-- Model of `d - relativedelta(months=1)`: step to the previous month, clamping the
day component to the length of the target month. -/
def monthsBack (d : PDate) : PDate :=
  if d.month = 1 then ⟨d.year - 1, 12, min d.day 31⟩
  else ⟨d.year, d.month - 1, min d.day (daysInMonth d.year (d.month - 1))⟩

/-- The month-subtraction `cur_date - relativedelta(months=1)` succeeds in
Python exactly when `cur_date` is a real `date` (year ≥ 1, month 1..12) other
than January of year 1 (where the result would reach year 0 and
`ValueError` is raised). -/
def monthStepOk (d : PDate) : Bool :=
  1 ≤ d.year && 1 ≤ d.month && d.month ≤ 12 && !(d.year = 1 && d.month = 1)

/-- Linear month index used as fuel for the backward-search loops:
`monthsBack` decreases it by exactly 1 on every valid date. -/
def monthIdx (d : PDate) : Nat := d.year * 12 + d.month

/-- Python `s.startswith(p)`: `p` is a prefix of `s`.  Stated over the
character lists (equivalent to `String.startsWith`) so that concrete
instances evaluate by `rfl`. -/
def strStartsWith (s p : String) : Bool := p.data.isPrefixOf s.data

/-! Row models: for the MMS tables

Each archive extract is parsed by `pd.read_csv(..., header=1)`.  Tables that
the source accesses only through named columns are modelled as structures
with those fields; the two registry tables (`GENCONDATA`,
`GENERICEQUATIONDESC`), whose *positional* columns matter because the source
drops columns `[0, 2, 3]` by position, are modelled as raw cell lists. -/

/-- A registry-table row (`GENCONDATA` / `GENERICEQUATIONDESC`): the list of
CSV cells of the row, in file order. -/
def RegRow := List String
deriving DecidableEq, Repr, Inhabited

/-- Position of the `GENCONID` column in a `GENCONDATA` extract
(cells 0-3 are the MMS record flag, report type, report subtype and version;
then `EFFECTIVEDATE`, `VERSIONNO`, `GENCONID`, ...). -/
def genconidIdx : Nat := 6

/-- Position of the `EQUATIONID` column in a `GENERICEQUATIONDESC` extract
(cells 0-3 are the MMS meta columns; then `EQUATIONID`, `DESCRIPTION`, ...). -/
def equationidIdx : Nat := 4

/-- The `GENCONID` cell of a `GENCONDATA` row. -/
def regGenconid (r : RegRow) : String := List.getD r genconidIdx ""

/-- The `EQUATIONID` cell of a `GENERICEQUATIONDESC` row. -/
def regEquationid (r : RegRow) : String := List.getD r equationidIdx ""

/-- Model of `df.drop(df.columns[[0, 2, 3]], axis=1)`: remove the cells at positions
0, 2 and 3 of a row (the CSV headers of these extracts are distinct labels,
so the label-based pandas drop is positional here). -/
def dropCols013 (r : RegRow) : RegRow :=
  ((List.enum r).filter (fun p => decide (p.1 ≠ 0 ∧ p.1 ≠ 2 ∧ p.1 ≠ 3))).map (·.2)

/-- A `SPDCONNECTIONPOINTCONSTRAINT` row. -/
structure CPRow where
  genconid : String
  connectionpointid : String
  factor : String
  bidtype : String
  deriving DecidableEq, Repr

/-- A `SPDINTERCONNECTORCONSTRAINT` row. -/
structure ICRow where
  genconid : String
  interconnectorid : String
  factor : String
  deriving DecidableEq, Repr

/-- A `SPDREGIONCONSTRAINT` row. -/
structure RegionRow where
  genconid : String
  regionid : String
  factor : String
  deriving DecidableEq, Repr

/-- A `DUDETAIL` row. -/
structure DudRow where
  connectionpointid : String
  duid : String
  deriving DecidableEq, Repr

/-- An `EMSMASTER` row. -/
structure EmsRow where
  spd_id : String
  description : String
  deriving DecidableEq, Repr

/-- A RHS-term source row (`GENERICCONSTRAINTRHS` keyed by `GENCONID`, or
`GENERICEQUATIONRHS` keyed by `EQUATIONID`; `owner_id` stands for that key
column).  `operation` is `none` when the CSV cell is missing/NA (pandas reads
it as `NaN`), `some s` when a string is present. -/
structure RhsSrcRow where
  owner_id : String
  termid : Nat
  spd_id : String
  spd_type : String
  factor : String
  operation : Option String
  deriving DecidableEq, Repr

/-- An LHS output record: one row of the DataFrame built from `dict_LHS`
(columns `type`, `ID`, `DUID`, `factor`, `bidtype`). -/
structure LhsOut where
  type : String
  ID : String
  DUID : String
  factor : String
  bidtype : String
  deriving DecidableEq, Repr

/-- A RHS output record: one row of the DataFrame built from `dict_RHS`
(columns `term_ID`, `ID`, `type`, `description`, `factor`, `operation`). -/
structure RhsOut where
  term_ID : Nat
  ID : String
  type : String
  description : String
  factor : String
  operation : String
  deriving DecidableEq, Repr

instance : Inhabited RhsOut := ⟨⟨0, "", "", "", "", ""⟩⟩

/-- The external world: for each MMS table name, a map from (month, year) to
either the parsed rows of that month's archive (trailer row included — the
parse returns the file as-is) or a fetch error. -/
structure Env where
  gencondata : Nat → Nat → Except Ferr (List RegRow)
  genericequationdesc : Nat → Nat → Except Ferr (List RegRow)
  spdconnectionpointconstraint : Nat → Nat → Except Ferr (List CPRow)
  spdinterconnectorconstraint : Nat → Nat → Except Ferr (List ICRow)
  spdregionconstraint : Nat → Nat → Except Ferr (List RegionRow)
  dudetail : Nat → Nat → Except Ferr (List DudRow)
  genericconstraintrhs : Nat → Nat → Except Ferr (List RhsSrcRow)
  genericequationrhs : Nat → Nat → Except Ferr (List RhsSrcRow)
  emsmaster : Nat → Nat → Except Ferr (List EmsRow)

/-! Embedding of `get_mms_table` -/

/-- The URL constructed by `get_mms_table`: zero-pads single-digit months.
The month appears both in the directory name and in the file suffix. -/
def mmsUrl (month year : Nat) (table : String) : String :=
  let strMonth := if month < 10 then "0" ++ toString month else toString month
  "https://nemweb.com.au/Data_Archive/Wholesale_Electricity/MMSDM/" ++
    toString year ++ "/MMSDM_" ++ toString year ++ "_" ++ strMonth ++
    "/MMSDM_Historical_Data_SQLLoader/DATA/PUBLIC_DVD_" ++ table ++
    "_" ++ toString year ++ strMonth ++ "010000.zip"

/-- Model of `get_mms_table(month, year, 'GENCONDATA')`: the function body is
`return pd.read_csv(url, compression='zip', header=1)` — it returns the
parsed archive rows unchanged (in particular the trailer row is still
present).  One wrapper per table name, since row types differ. -/
def get_mms_table_GENCONDATA (env : Env) (month year : Nat) :
    Except Ferr (List RegRow) := env.gencondata month year

/-- Model of `get_mms_table(month, year, 'GENERICEQUATIONDESC')`. -/
def get_mms_table_GENERICEQUATIONDESC (env : Env) (month year : Nat) :
    Except Ferr (List RegRow) := env.genericequationdesc month year

/-- Model of `get_mms_table(month, year, 'SPDCONNECTIONPOINTCONSTRAINT')`. -/
def get_mms_table_SPDCONNECTIONPOINTCONSTRAINT (env : Env) (month year : Nat) :
    Except Ferr (List CPRow) := env.spdconnectionpointconstraint month year

/-- Model of `get_mms_table(month, year, 'SPDINTERCONNECTORCONSTRAINT')`. -/
def get_mms_table_SPDINTERCONNECTORCONSTRAINT (env : Env) (month year : Nat) :
    Except Ferr (List ICRow) := env.spdinterconnectorconstraint month year

/-- Model of `get_mms_table(month, year, 'SPDREGIONCONSTRAINT')`. -/
def get_mms_table_SPDREGIONCONSTRAINT (env : Env) (month year : Nat) :
    Except Ferr (List RegionRow) := env.spdregionconstraint month year

/-- Model of `get_mms_table(month, year, 'DUDETAIL')`. -/
def get_mms_table_DUDETAIL (env : Env) (month year : Nat) :
    Except Ferr (List DudRow) := env.dudetail month year

/-- Model of `get_mms_table(month, year, 'GENERICCONSTRAINTRHS')`. -/
def get_mms_table_GENERICCONSTRAINTRHS (env : Env) (month year : Nat) :
    Except Ferr (List RhsSrcRow) := env.genericconstraintrhs month year

/-- Model of `get_mms_table(month, year, 'GENERICEQUATIONRHS')`. -/
def get_mms_table_GENERICEQUATIONRHS (env : Env) (month year : Nat) :
    Except Ferr (List RhsSrcRow) := env.genericequationrhs month year

/-- Model of `get_mms_table(month, year, 'EMSMASTER')`. -/
def get_mms_table_EMSMASTER (env : Env) (month year : Nat) :
    Except Ferr (List EmsRow) := env.emsmaster month year

/-- Model of `df.drop(index=df.index[-1], axis=0)` applied immediately after each
fetch: the index is the fresh `RangeIndex` from `read_csv`, so dropping the
label `df.index[-1]` removes exactly the last row (the archive trailer). -/
def dropTrailer {α : Type} (l : List α) : List α := List.dropLast l

/-! Backward searches (`find_constraint`, `find_generic_RHS_func`) -/

/-- The `while df.empty and cur_date > start_date` loop of
`find_constraint`, including the post-loop branch on `df.empty`: on each
iteration it fetches `GENCONDATA` for the probed month (an exception
propagates — there is no `try`/`except` in the source), drops the trailer,
filters by `df['GENCONID'].str.startswith(constraint)`, and then computes
`cur_date - relativedelta(months=1)` (which raises `ValueError` on January
of year 1) before re-testing the loop condition.  `fuel` is one more than
`monthIdx cur` at every reachable call, so the `0` case is unreachable. -/
def find_constraint_loop (env : Env) (constraint : String) (start : PDate) :
    Nat → PDate → Except Ferr (List RegRow × Bool)
  | 0, _ => .error .invalidDate
  | fuel + 1, cur =>
    if pdLt start cur then
      match env.gencondata cur.month cur.year with
      | .error e => .error e
      | .ok t =>
        let df := (dropTrailer t).filter (fun r => strStartsWith (regGenconid r) constraint)
        if monthStepOk cur then
          if df.isEmpty then
            find_constraint_loop env constraint start fuel (monthsBack cur)
          else
            .ok (df.map dropCols013, true)
        else .error .invalidDate
    else .ok ([], false)

/-- Model of `find_constraint(constraint, start_date, end_date)`: a backward
month-by-month scan of `GENCONDATA` starting at `end_date` itself (the
source never truncates `cur_date` to the first of the month).  Returns the
filtered rows of the first matching month with columns `[0, 2, 3]` dropped
and `found = True`, or `(empty, False)` when the boundary is reached.
The `end_date = None` default (`date.today() - relativedelta(months=2)`) is
outside the model; the claims quantify over explicit dates. -/
def find_constraint (env : Env) (constraint : String) (start endDate : PDate) :
    Except Ferr (List RegRow × Bool) :=
  find_constraint_loop env constraint start (monthIdx endDate + 1) endDate

/-- The search loop of `find_generic_RHS_func`: identical to
`find_constraint_loop` except that it scans `GENERICEQUATIONDESC` and
filters on `df['EQUATIONID'].str.startswith(equation_id)`. -/
def find_generic_RHS_func_loop (env : Env) (equation_id : String) (start : PDate) :
    Nat → PDate → Except Ferr (List RegRow × Bool)
  | 0, _ => .error .invalidDate
  | fuel + 1, cur =>
    if pdLt start cur then
      match env.genericequationdesc cur.month cur.year with
      | .error e => .error e
      | .ok t =>
        let df := (dropTrailer t).filter (fun r => strStartsWith (regEquationid r) equation_id)
        if monthStepOk cur then
          if df.isEmpty then
            find_generic_RHS_func_loop env equation_id start fuel (monthsBack cur)
          else
            .ok (df.map dropCols013, true)
        else .error .invalidDate
    else .ok ([], false)

/-- Model of `find_generic_RHS_func(equation_id, start_date, end_date)`. -/
def find_generic_RHS_func (env : Env) (equation_id : String) (start endDate : PDate) :
    Except Ferr (List RegRow × Bool) :=
  find_generic_RHS_func_loop env equation_id start (monthIdx endDate + 1) endDate

/-! Cell parsing and per-row helpers -/

/-- The default `NA` sentinels of `pandas.read_csv`: a CSV cell holding one
of these strings (or an empty cell) is parsed as `NaN`, not as a string. -/
def pandasNAStrings : List String :=
  ["", "#N/A", "#N/A N/A", "#NA", "-1.#IND", "-1.#QNAN", "-NaN", "-nan",
   "1.#IND", "1.#QNAN", "<NA>", "N/A", "NA", "NULL", "NaN", "None",
   "n/a", "nan", "null"]

/-- How `read_csv` parses a raw text cell of a string column: `none` (`NaN`)
for the NA sentinels, the string itself otherwise.  In particular a fetched
`operation` cell can never be the string `"nan"`. -/
def parseCell (raw : String) : Option String :=
  if raw ∈ pandasNAStrings then none else some raw

/-- Model of `str_op = str(df['OPERATION'].iloc[i]); if str_op == 'nan': str_op = '-'`:
`str(...)` renders a missing value (`float('nan')`) as `"nan"`, which is then
replaced by `"-"`; a present string is unchanged. -/
def opString (op : Option String) : String :=
  let str_op := match op with
    | none => "nan"
    | some s => s
  if str_op = "nan" then "-" else str_op

/-- Model of `df_ems[df_ems['SPD_ID'] == spd_id]['DESCRIPTION']` followed by
`'-' if df1.empty else df1.iloc[0]`: the description of the first
`EMSMASTER` row (in source order) whose `SPD_ID` matches, `"-"` if none. -/
def emsLookup (ems : List EmsRow) (spdid : String) : String :=
  match (ems.filter (fun e => e.spd_id = spdid)).head? with
  | none => "-"
  | some e => e.description

/-- Model of `df_lookup[df_lookup['CONNECTIONPOINTID'] == cp]['DUID']` followed by
`'DUID not found' if df_DUID.empty else df_DUID.iloc[0]`. -/
def dudLookup (dud : List DudRow) (cp : String) : String :=
  match (dud.filter (fun d => d.connectionpointid = cp)).head? with
  | none => "DUID not found"
  | some d => d.duid

/-- The `spd_type` dispatch of `get_RHS_terms` (constraint path: the
`elif spd_type == 'X'` branch yields the fixed sentinel). -/
def rhsDesc (ems : List EmsRow) (r : RhsSrcRow) : String :=
  if r.spd_type ∈ ["A", "S", "I", "T", "R"] then emsLookup ems r.spd_id
  else if r.spd_type = "X" then "Generic RHS function"
  else "-"

/-- The `spd_type` dispatch of `get_generic_RHS_func` (no `'X'` branch:
anything outside {A,S,I,T,R} falls to the `else` and yields `"-"`). -/
def rhsDescGeneric (ems : List EmsRow) (r : RhsSrcRow) : String :=
  if r.spd_type ∈ ["A", "S", "I", "T", "R"] then emsLookup ems r.spd_id
  else "-"

/-- One iteration of the `for i in range(len(df))` loop of `get_RHS_terms`:
the appends to `dict_RHS` build this output record. -/
def mkRhsOut (ems : List EmsRow) (r : RhsSrcRow) : RhsOut :=
  { term_ID := r.termid
    ID := r.spd_id
    type := r.spd_type
    description := rhsDesc ems r
    factor := r.factor
    operation := opString r.operation }

/-- One iteration of the row loop of `get_generic_RHS_func`. -/
def mkRhsOutGeneric (ems : List EmsRow) (r : RhsSrcRow) : RhsOut :=
  { term_ID := r.termid
    ID := r.spd_id
    type := r.spd_type
    description := rhsDescGeneric ems r
    factor := r.factor
    operation := opString r.operation }

/-! Embedding of `sort_values(by='term_ID')`

`DataFrame.sort_values` with the default `kind='quicksort'` computes
`np.argsort(column, kind='quicksort')` (pandas `nargsort`; the column has no
missing values here, so the NaN handling is inert) and reorders the rows by
the resulting indexer.  `np.argsort(kind='quicksort')` is numpy's introsort
(`aquicksort` in `npysort/quicksort.c.src`): median-of-3 Hoare partitioning
down to segments of ≤ 16 elements (`SMALL_QUICKSORT = 15`, guard
`pr - pl > 15`), a final insertion-sort pass over each small segment, and a
heapsort fallback once a shared depth budget `2 * npy_get_msb(n)` is
exhausted.  It is *not* a stable sort.  The functions below model it over an
index list; loops are totalised with fuel bounds that the algorithm never
exceeds.  Index accesses use `getD`; the algorithm's own sentinel invariants
keep them in bounds. -/

/-- Swap two positions of the index array (`INTP_SWAP`). -/
def swapA (a : Array Nat) (i j : Nat) : Array Nat :=
  let x := a.getD i 0
  let y := a.getD j 0
  (a.setD i y).setD j x

/-- Key of the element whose index sits at position `p` of the segment:
`v[seg[p]]`. -/
def keyAt (v seg : Array Nat) (p : Nat) : Nat := v.getD (seg.getD p 0) 0

/-- Model of `do ++pi; while (v[*pi] < vp);` — advance `pi` past keys below the
pivot.  Fuel-bounded; the median-of-3 sentinel at the segment's right end
stops the scan in bounds. -/
def scanUp (v seg : Array Nat) (vp : Nat) : Nat → Nat → Nat
  | 0, pi => pi
  | fuel + 1, pi =>
    let pi' := pi + 1
    if keyAt v seg pi' < vp then scanUp v seg vp fuel pi' else pi'

/-- Model of `do --pj; while (vp < v[*pj]);` — move `pj` back past keys above the
pivot; the sentinel at the segment's left end stops the scan. -/
def scanDown (v seg : Array Nat) (vp : Nat) : Nat → Nat → Nat
  | 0, pj => pj
  | fuel + 1, pj =>
    let pj' := pj - 1
    if vp < keyAt v seg pj' then scanDown v seg vp fuel pj' else pj'

/-- The Hoare scan-and-swap loop of the partition step; returns the
rearranged segment and the final `pi`. -/
def swapLoop (v : Array Nat) (vp : Nat) : Nat → Array Nat → Nat → Nat → Array Nat × Nat
  | 0, seg, pi, _ => (seg, pi)
  | fuel + 1, seg, pi, pj =>
    let pi' := scanUp v seg vp seg.size pi
    let pj' := scanDown v seg vp seg.size pj
    if pi' ≥ pj' then (seg, pi')
    else swapLoop v vp fuel (swapA seg pi' pj') pi' pj'

/-- One `aquicksort` partition step on a segment of length ≥ 2:
median-of-3 pivot selection (with the conditional index swaps), pivot parked
at `pr - 1`, Hoare scans, final pivot placement at `pi`.  Returns the
rearranged segment and the pivot position. -/
def npPartition (v : Array Nat) (seg : Array Nat) : Array Nat × Nat :=
  let pl := 0
  let pr := seg.size - 1
  let pm := pr / 2
  let seg := if keyAt v seg pm < keyAt v seg pl then swapA seg pm pl else seg
  let seg := if keyAt v seg pr < keyAt v seg pm then swapA seg pr pm else seg
  let seg := if keyAt v seg pm < keyAt v seg pl then swapA seg pm pl else seg
  let vp := keyAt v seg pm
  let seg := swapA seg pm (pr - 1)
  let (seg, pi) := swapLoop v vp seg.size seg pl (pr - 1)
  let seg := swapA seg pi (pr - 1)
  (seg, pi)

/-- Insert index `i` into the already-sorted prefix `acc`: numpy shifts
larger keys up from the right and drops `i` after the last key `≤ v[i]`;
on a sorted prefix that position is just before the first strictly greater
key, which is what this left-to-right scan computes.  Ties are never
crossed, so equal keys keep their insertion order. -/
def insL (v : Array Nat) (i : Nat) : List Nat → List Nat
  | [] => [i]
  | k :: ks => if v.getD i 0 < v.getD k 0 then i :: k :: ks else k :: insL v i ks

/-- The final insertion-sort pass of `aquicksort` over one small segment
(`for (pi = pl + 1; pi <= pr; ++pi) ...`). -/
def npInsArgsort (v : Array Nat) (seg : List Nat) : List Nat :=
  seg.foldl (fun acc i => insL v i acc) []

/-- One sift-down of numpy's `aheapsort` (1-based heap indices over the
segment).  `tmp` is the index value being placed; returns the updated
segment. -/
def heapSift (v : Array Nat) (tmp : Nat) (n : Nat) : Nat → Array Nat → Nat → Nat → Array Nat
  | 0, a, i, _ => a.setD (i - 1) tmp
  | fuel + 1, a, i, j =>
    if j ≤ n then
      let j := if j < n && v.getD (a.getD (j - 1) 0) 0 < v.getD (a.getD j 0) 0
               then j + 1 else j
      if v.getD tmp 0 < v.getD (a.getD (j - 1) 0) 0 then
        heapSift v tmp n fuel (a.setD (i - 1) (a.getD (j - 1) 0)) j (j * 2)
      else a.setD (i - 1) tmp
    else a.setD (i - 1) tmp

/-- The heap-construction loop of `aheapsort` (`for (l = n >> 1; l > 0; --l)`). -/
def heapBuild (v : Array Nat) (n : Nat) : Nat → Array Nat → Array Nat
  | 0, a => a
  | l + 1, a =>
    let lIdx := l + 1
    let tmp := a.getD (lIdx - 1) 0
    heapBuild v n l (heapSift v tmp n (n + 1) a lIdx (lIdx * 2))

/-- The extraction loop of `aheapsort` (`for (; n > 1;)`). -/
def heapExtract (v : Array Nat) : Nat → Nat → Array Nat → Array Nat
  | 0, _, a => a
  | fuel + 1, n, a =>
    if n > 1 then
      let tmp := a.getD (n - 1) 0
      let a := a.setD (n - 1) (a.getD 0 0)
      let n := n - 1
      heapExtract v fuel n (heapSift v tmp n (n + 1) a 1 2)
    else a

/-- numpy `aheapsort` on a segment of indices (the depth-limit fallback of
`aquicksort`). -/
def npHeapsortIdx (v : Array Nat) (seg : List Nat) : List Nat :=
  let a := seg.toArray
  let n := a.size
  (heapExtract v n n (heapBuild v n (n / 2) a)).toList

/-- The recursive core of `aquicksort`.  A segment of ≤ 16 indices
(`pr - pl ≤ SMALL_QUICKSORT`) is insertion-sorted; otherwise, if the shared
depth budget is exhausted (`depth_limit-- < 0`, checked before the
decrement), the segment is heapsorted; otherwise it is partitioned and the
two sides are processed in numpy's traversal order — the smaller side first,
the larger side popped from the stack afterwards — threading the shared
`depth_limit` through in that order.  `fuel` starts at one more than the
segment length; every partition strictly shrinks both sides, so fuel never
runs out. -/
def npIntrosort (v : Array Nat) : Nat → List Nat → Int → List Nat × Int
  | 0, seg, dl => (seg, dl)
  | fuel + 1, seg, dl =>
    if seg.length ≤ 16 then (npInsArgsort v seg, dl)
    else if dl < 0 then (npHeapsortIdx v seg, dl - 1)
    else
      let (segA, pi) := npPartition v seg.toArray
      let left := segA.toList.take pi
      let piv := segA.getD pi 0
      let right := segA.toList.drop (pi + 1)
      let dl := dl - 1
      if left.length < right.length then
        let (l1, dl1) := npIntrosort v fuel left dl
        let (r1, dl2) := npIntrosort v fuel right dl1
        (l1 ++ piv :: r1, dl2)
      else
        let (r1, dl1) := npIntrosort v fuel right dl
        let (l1, dl2) := npIntrosort v fuel left dl1
        (l1 ++ piv :: r1, dl2)

/-- Fuel-bounded floor-log2: the value of `npy_get_msb` (position of the
highest set bit; 0 for 0).  Structural recursion so that it evaluates by
`rfl`. -/
def msbAux : Nat → Nat → Nat
  | 0, _ => 0
  | fuel + 1, n => if 2 ≤ n then msbAux fuel (n / 2) + 1 else 0

/-- numpy `npy_get_msb`. -/
def npyGetMsb (n : Nat) : Nat := msbAux n n

/-- Model of `np.argsort(v, kind='quicksort')` as called by pandas `nargsort` on a
column with no missing values: introsort over the identity index list, with
initial depth budget `2 * npy_get_msb(n)` (`npy_get_msb = ⌊log₂⌋`). -/
def npArgsortQuick (v : Array Nat) : List Nat :=
  (npIntrosort v (v.size + 1) (List.range v.size) (2 * (npyGetMsb v.size : Int))).1

/-- Model of `df.sort_values(by='term_ID')`: reorder the rows by the argsort indexer
of the `term_ID` column (`take` in pandas; every indexer entry is a valid
position, so the `filterMap` totalisation drops nothing). -/
def sortByTermId (l : List RhsOut) : List RhsOut :=
  let keys : Array Nat := (l.map (·.term_ID)).toArray
  (npArgsortQuick keys).filterMap (fun i => l.get? i)

/-! Term resolvers -/

/-- Model of `get_LHS_terms(constraint, month, year)`: fetch the three LHS term-
category tables in order (connection points, interconnectors, regions), each
immediately trailer-dropped and filtered by `df['GENCONID'] == constraint`;
the `DUDETAIL` lookup table is fetched only when at least one connection-
point row matched (`if not df.empty:`).  The per-category `if not df.empty:`
guards around the append loops are no-ops for the loop itself and are
modelled by the `map` over the (possibly empty) filtered list.  The result
rows land in `dict_LHS` in loop order: connection points, then
interconnectors, then regions. -/
def get_LHS_terms (env : Env) (constraint : String) (month year : Nat) :
    Except Ferr (List LhsOut) := do
  let cpT ← get_mms_table_SPDCONNECTIONPOINTCONSTRAINT env month year
  let cp := (dropTrailer cpT).filter (fun r => r.genconid = constraint)
  let cpOut ←
    if cp.isEmpty then
      pure ([] : List LhsOut)
    else do
      let dudT ← get_mms_table_DUDETAIL env month year
      let dud := dropTrailer dudT
      pure (cp.map (fun r =>
        { type := "CONNECTIONPOINT"
          ID := r.connectionpointid
          DUID := dudLookup dud r.connectionpointid
          factor := r.factor
          bidtype := r.bidtype }))
  let icT ← get_mms_table_SPDINTERCONNECTORCONSTRAINT env month year
  let ic := (dropTrailer icT).filter (fun r => r.genconid = constraint)
  let icOut := ic.map (fun r =>
    { type := "INTERCONNECTOR"
      ID := r.interconnectorid
      DUID := r.interconnectorid
      factor := r.factor
      bidtype := "N/A" : LhsOut })
  let regT ← get_mms_table_SPDREGIONCONSTRAINT env month year
  let reg := (dropTrailer regT).filter (fun r => r.genconid = constraint)
  let regOut := reg.map (fun r =>
    { type := "REGION"
      ID := r.regionid
      DUID := r.regionid
      factor := r.factor
      bidtype := "N/A" : LhsOut })
  pure (cpOut ++ icOut ++ regOut)

/-- Model of `get_RHS_terms(constraint, month, year)`: fetch `GENERICCONSTRAINTRHS`,
drop the trailer, filter by `df['GENCONID'] == constraint`; if no row
matches, only a message is printed and the (empty) accumulator goes through
`sort_values`; otherwise `EMSMASTER` is fetched and each matching row is
transformed in fetch order.  Either way the result is
`pd.DataFrame(dict_RHS).sort_values(by='term_ID')`. -/
def get_RHS_terms (env : Env) (constraint : String) (month year : Nat) :
    Except Ferr (List RhsOut) := do
  let t ← get_mms_table_GENERICCONSTRAINTRHS env month year
  let df := (dropTrailer t).filter (fun r => r.owner_id = constraint)
  if df.isEmpty then
    pure (sortByTermId [])
  else do
    let emsT ← get_mms_table_EMSMASTER env month year
    let ems := dropTrailer emsT
    pure (sortByTermId (df.map (mkRhsOut ems)))

/-- Model of `get_generic_RHS_func(equation_id, month, year)`: as `get_RHS_terms`
but over `GENERICEQUATIONRHS` filtered by `df['EQUATIONID'] == equation_id`,
and with no `'X'` description branch. -/
def get_generic_RHS_func (env : Env) (equation_id : String) (month year : Nat) :
    Except Ferr (List RhsOut) := do
  let t ← get_mms_table_GENERICEQUATIONRHS env month year
  let df := (dropTrailer t).filter (fun r => r.owner_id = equation_id)
  if df.isEmpty then
    pure (sortByTermId [])
  else do
    let emsT ← get_mms_table_EMSMASTER env month year
    let ems := dropTrailer emsT
    pure (sortByTermId (df.map (mkRhsOutGeneric ems)))

/-- Model of `get_constraint_details(constraint, month, year)`: the registry record
(columns `[0,2,3]` dropped when found), the LHS terms and the RHS terms.
LHS/RHS resolution is attempted even when the registry filter is empty. -/
def get_constraint_details (env : Env) (constraint : String) (month year : Nat) :
    Except Ferr (List RegRow × List LhsOut × List RhsOut) := do
  let t ← get_mms_table_GENCONDATA env month year
  let df0 := (dropTrailer t).filter (fun r => regGenconid r = constraint)
  let df := if df0.isEmpty then df0 else df0.map dropCols013
  let lhs ← get_LHS_terms env constraint month year
  let rhs ← get_RHS_terms env constraint month year
  pure (df, lhs, rhs)

/-! Spec-side comparison model for the backward search.

The specification describes the search as "starting at `end_date`, truncated
to the first day of its month"; stepping one month back from a
first-of-month date stays on the first of the month, so the whole spec-side
probe sequence consists of first-of-month dates.  This definition follows
the spec's words; it differs from `find_constraint` only in the starting
probe date and exists to be compared against the source-faithful
definition. -/

/-- Backward constraint search as worded by the spec: identical loop, but
the initial probe date is `end_date` truncated to the first day of its
month. -/
def find_constraint_specTruncated (env : Env) (constraint : String)
    (start endDate : PDate) : Except Ferr (List RegRow × Bool) :=
  find_constraint_loop env constraint start
    (monthIdx ⟨endDate.year, endDate.month, 1⟩ + 1) ⟨endDate.year, endDate.month, 1⟩

/-! Concrete environments used in counterexamples and witnesses. -/

/-- Base environment: every archive is absent. -/
def envBase : Env where
  gencondata := fun _ _ => .error .notFound
  genericequationdesc := fun _ _ => .error .notFound
  spdconnectionpointconstraint := fun _ _ => .error .notFound
  spdinterconnectorconstraint := fun _ _ => .error .notFound
  spdregionconstraint := fun _ _ => .error .notFound
  dudetail := fun _ _ => .error .notFound
  genericconstraintrhs := fun _ _ => .error .notFound
  genericequationrhs := fun _ _ => .error .notFound
  emsmaster := fun _ _ => .error .notFound

/-- A `GENCONDATA` data row for constraint `Q_TEST_1`. -/
def rowQ1 : RegRow :=
  ["D", "GENCONDATA", "GENCONDATA", "3", "2022/06/01", "1", "Q_TEST_1",
   "LE", "100", "Test constraint 1"]

/-- A second `GENCONDATA` data row, for constraint `Q_TEST_2`. -/
def rowQ2 : RegRow :=
  ["D", "GENCONDATA", "GENCONDATA", "3", "2022/06/01", "1", "Q_TEST_2",
   "LE", "200", "Test constraint 2"]

/-- The non-data trailer row every MMS extract ends with. -/
def trailerReg : RegRow :=
  ["C", "END OF REPORT", "", "", "", "", "", "", "", ""]

/-- A `GENERICEQUATIONDESC` data row for equation `F_TEST`. -/
def rowE1 : RegRow :=
  ["D", "GENERICEQUATION", "GENERICEQUATIONDESC", "1", "F_TEST",
   "Test generic equation", "2022/06/01"]

/-- Environment in which the June 2022 `GENCONDATA` archive holds two
matching constraints (plus the trailer), and the June 2022
`GENERICEQUATIONDESC` archive holds one matching equation. -/
def envJunMatch : Env :=
  { envBase with
    gencondata := fun m y =>
      if m = 6 && y = 2022 then .ok [rowQ1, rowQ2, trailerReg]
      else .error .notFound
    genericequationdesc := fun m y =>
      if m = 6 && y = 2022 then .ok [rowE1, trailerReg]
      else .error .notFound }

/-- Environment in which the June 2022 `GENCONDATA` archive is absent while
the May 2022 one holds a matching constraint: a one-month archive gap right
at the start of the backward scan. -/
def envJunGap : Env :=
  { envBase with
    gencondata := fun m y =>
      if m = 5 && y = 2022 then .ok [rowQ1, trailerReg]
      else .error .notFound }

/-- Environment in which the June 2022 registry archives exist but
have no matching rows (trailer only), while the May 2022 ones have a match:
the searches must step back exactly one month to succeed. -/
def envJunEmptyMayMatch : Env :=
  { envBase with
    gencondata := fun m y =>
      if m = 6 && y = 2022 then .ok [trailerReg]
      else if m = 5 && y = 2022 then .ok [rowQ1, trailerReg]
      else .error .notFound
    genericequationdesc := fun m y =>
      if m = 6 && y = 2022 then .ok [trailerReg]
      else if m = 5 && y = 2022 then .ok [rowE1, trailerReg]
      else .error .notFound }

/-- A RHS source row with term-sequence-number 1 and a distinguishing
`SPD_ID`. -/
def rhsRow (n : Nat) : RhsSrcRow :=
  { owner_id := "G_FUNC", termid := 1, spd_id := "r" ++ toString n,
    spd_type := "W", factor := "1", operation := none }

/-- Non-data trailer row of a RHS extract. -/
def trailerRhs : RhsSrcRow :=
  { owner_id := "C", termid := 0, spd_id := "", spd_type := "",
    factor := "", operation := some "END OF REPORT" }

/-- Environment whose June 2022 `GENERICCONSTRAINTRHS` archive holds 17
matching rows, all with the same term-sequence-number 1, distinguished by
`SPD_ID` `r0`..`r16` (fetch order), plus the trailer; `EMSMASTER` holds only
its trailer. -/
def envRhs17 : Env :=
  { envBase with
    genericconstraintrhs := fun m y =>
      if m = 6 && y = 2022 then .ok (((List.range 17).map rhsRow) ++ [trailerRhs])
      else .error .notFound
    emsmaster := fun m y =>
      if m = 6 && y = 2022 then .ok [⟨"", "TRAILER"⟩]
      else .error .notFound }

/-- An `EMSMASTER` table with two rows for `SPD_X1` (distinct descriptions)
and one row for `SPD_A1`, plus the trailer. -/
def emsSmall : List EmsRow :=
  [⟨"SPD_X1", "first description"⟩, ⟨"SPD_A1", "analog one"⟩,
   ⟨"SPD_X1", "second description"⟩, ⟨"", "TRAILER"⟩]

/-- A small RHS source table: three matching rows with tied term-sequence-
numbers and various `spd_type`s, plus a non-matching row and the trailer. -/
def rhsSmallRows : List RhsSrcRow :=
  [{ owner_id := "CON_A", termid := 2, spd_id := "SPD_X1", spd_type := "A",
     factor := "1", operation := none },
   { owner_id := "CON_A", termid := 1, spd_id := "SPD_G", spd_type := "X",
     factor := "0.5", operation := some "ADD" },
   { owner_id := "OTHER", termid := 9, spd_id := "SPD_A1", spd_type := "A",
     factor := "3", operation := some "MUL" },
   { owner_id := "CON_A", termid := 2, spd_id := "SPD_W", spd_type := "W",
     factor := "2", operation := some "MUL" },
   trailerRhs]

/-- Environment with the small RHS table (as both the constraint-RHS and
generic-equation-RHS registries) and the small `EMSMASTER` table in June
2022. -/
def envRhsSmall : Env :=
  { envBase with
    genericconstraintrhs := fun m y =>
      if m = 6 && y = 2022 then .ok rhsSmallRows else .error .notFound
    genericequationrhs := fun m y =>
      if m = 6 && y = 2022 then .ok rhsSmallRows else .error .notFound
    emsmaster := fun m y =>
      if m = 6 && y = 2022 then .ok emsSmall else .error .notFound }

/-- Environment for the LHS resolver: one matching and one non-matching row
in each category table, a `DUDETAIL` table with two rows for `CP1` (the
first must win) and none for `CP2`, in June 2022. -/
def envLhs : Env :=
  { envBase with
    spdconnectionpointconstraint := fun m y =>
      if m = 6 && y = 2022 then
        .ok [⟨"CON_A", "CP1", "1", "ENERGY"⟩, ⟨"CON_A", "CP2", "-1", "ENERGY"⟩,
             ⟨"OTHER", "CP9", "1", "ENERGY"⟩, ⟨"C", "", "", ""⟩]
      else .error .notFound
    spdinterconnectorconstraint := fun m y =>
      if m = 6 && y = 2022 then
        .ok [⟨"CON_A", "V-SA", "1"⟩, ⟨"OTHER", "N-Q", "1"⟩, ⟨"C", "", ""⟩]
      else .error .notFound
    spdregionconstraint := fun m y =>
      if m = 6 && y = 2022 then
        .ok [⟨"CON_A", "VIC1", "1"⟩, ⟨"C", "", ""⟩]
      else .error .notFound
    dudetail := fun m y =>
      if m = 6 && y = 2022 then
        .ok [⟨"CP1", "UNIT1"⟩, ⟨"CP1", "UNIT1B"⟩, ⟨"C", ""⟩]
      else .error .notFound }

/-- Environment in which the RHS registries for June 2022 exist but contain
no data rows (trailer only) and every lookup table fetch fails: used to show
that a zero-match query never touches the lookup tables.  The LHS category
tables have matching interconnector and region rows but no matching
connection-point row, while `DUDETAIL` fails. -/
def envNoMatch : Env :=
  { envBase with
    genericconstraintrhs := fun m y =>
      if m = 6 && y = 2022 then .ok [trailerRhs] else .error .notFound
    genericequationrhs := fun m y =>
      if m = 6 && y = 2022 then .ok [trailerRhs] else .error .notFound
    spdconnectionpointconstraint := fun m y =>
      if m = 6 && y = 2022 then
        .ok [⟨"OTHER", "CP9", "1", "ENERGY"⟩, ⟨"C", "", "", ""⟩]
      else .error .notFound
    spdinterconnectorconstraint := fun m y =>
      if m = 6 && y = 2022 then
        .ok [⟨"CON_A", "V-SA", "1"⟩, ⟨"C", "", ""⟩]
      else .error .notFound
    spdregionconstraint := fun m y =>
      if m = 6 && y = 2022 then
        .ok [⟨"CON_A", "VIC1", "1"⟩, ⟨"C", "", ""⟩]
      else .error .notFound
    dudetail := fun _ _ => .error .transientFail
    emsmaster := fun _ _ => .error .transientFail }

/-! Generic list lemmas. -/

/-- The head of a filtered list is the first element satisfying the
predicate, in source order. -/
theorem head?_filter_eq_find? {α : Type} (p : α → Bool) (l : List α) :
    (l.filter p).head? = l.find? p := by
  induction l with
  | nil => rfl
  | cons a l ih =>
    by_cases h : p a
    · simp [List.filter_cons, List.find?_cons, h]
    · simp only [List.filter_cons, List.find?_cons, h]
      simp only [Bool.false_eq_true, if_false, ih]

/-- Elements produced by `filterMap get?` are members of the list. -/
theorem mem_of_mem_filterMap_get? {α : Type} (idx : List Nat) (l : List α) (a : α)
    (h : a ∈ idx.filterMap (fun i => l.get? i)) : a ∈ l := by
  rcases List.mem_filterMap.1 h with ⟨i, _, hget⟩
  exact List.get?_mem hget

/-- When every index is in bounds, `filterMap get?` is a plain `map`. -/
theorem filterMap_get?_eq_map {α : Type} [Inhabited α] (idx : List Nat) (l : List α)
    (h : ∀ i ∈ idx, i < l.length) :
    idx.filterMap (fun i => l.get? i) = idx.map (fun i => l.getD i default) := by
  induction idx with
  | nil => rfl
  | cons i idx ih =>
    have hi : i < l.length := h i (List.mem_cons_self i idx)
    have hget : l.get? i = some (l.getD i default) := by
      rw [List.get?_eq_getElem?, List.getElem?_eq_getElem hi, List.getD_eq_getElem l default hi]
    simp only [List.filterMap_cons, hget, List.map_cons]
    exact congrArg _ (ih fun j hj => h j (List.mem_cons_of_mem i hj))

/-- Filtering a list is the same as filtering its positions and reading the
elements back. -/
theorem range_filter_getD {α : Type} [Inhabited α] (p : α → Bool) (l : List α) :
    (((List.range l.length).filter (fun i => p (l.getD i default))).map
        (fun i => l.getD i default)) = l.filter p := by
  induction l with
  | nil => rfl
  | cons a l ih =>
    have hc : ((fun i => p ((a :: l).getD i default)) ∘ Nat.succ) =
        (fun i => p (l.getD i default)) := by
      funext i; simp [List.getD_cons_succ]
    have hm : ((fun i => (a :: l).getD i default) ∘ Nat.succ) =
        (fun i => l.getD i default) := by
      funext i; simp [List.getD_cons_succ]
    have tail : (((List.range l.length).map Nat.succ).filter
          (fun i => p ((a :: l).getD i default))).map
            (fun i => (a :: l).getD i default) = l.filter p := by
      rw [List.filter_map, List.map_map, hc, hm, ih]
    rw [List.length_cons, List.range_succ_eq_map]
    by_cases h : p a
    · simp only [List.filter_cons, List.getD_cons_zero, h, if_true, List.map_cons]
      rw [tail]
    · simp only [List.filter_cons, List.getD_cons_zero, h, Bool.false_eq_true, if_false]
      rw [tail]

/-! Properties of the insertion-sort pass of the argsort model. -/

/-- Key-comparison order on index positions. -/
def keyLe (v : Array Nat) (a b : Nat) : Prop := v.getD a 0 ≤ v.getD b 0

/-- Decidable key-class test, positive form. -/
theorem decideKey_true {v : Array Nat} {k j : Nat} (h : v.getD j 0 = k) :
    (fun j => decide (v.getD j 0 = k)) j = true := decide_eq_true h

/-- Decidable key-class test, negative form. -/
theorem decideKey_false {v : Array Nat} {k j : Nat} (h : ¬v.getD j 0 = k) :
    ¬(fun j => decide (v.getD j 0 = k)) j = true :=
  fun h' => h (of_decide_eq_true h')

/-- Membership through one insertion step. -/
theorem mem_insL (v : Array Nat) (i x : Nat) (acc : List Nat) :
    x ∈ insL v i acc ↔ x = i ∨ x ∈ acc := by
  induction acc with
  | nil => simp [insL]
  | cons c cs ih =>
    by_cases h : v.getD i 0 < v.getD c 0
    · simp only [insL, h, if_true, List.mem_cons]
    · simp only [insL, h, Bool.false_eq_true, if_false, List.mem_cons, ih]
      tauto

/-- Insertion preserves sortedness of the accumulated prefix. -/
theorem insL_pairwise (v : Array Nat) (i : Nat) (acc : List Nat)
    (h : acc.Pairwise (keyLe v)) : (insL v i acc).Pairwise (keyLe v) := by
  induction acc with
  | nil => simp [insL, List.pairwise_cons, keyLe]
  | cons c cs ih =>
    rw [List.pairwise_cons] at h
    obtain ⟨hc, hcs⟩ := h
    by_cases hlt : v.getD i 0 < v.getD c 0
    · simp only [insL, hlt, if_true]
      rw [List.pairwise_cons]
      refine ⟨?_, ?_⟩
      · intro x hx
        rcases List.mem_cons.1 hx with rfl | hx
        · exact Nat.le_of_lt hlt
        · exact Nat.le_trans (Nat.le_of_lt hlt) (hc x hx)
      · rw [List.pairwise_cons]
        exact ⟨hc, hcs⟩
    · simp only [insL, hlt, Bool.false_eq_true, if_false]
      rw [List.pairwise_cons]
      refine ⟨?_, ih hcs⟩
      intro x hx
      rcases (mem_insL v i x cs).1 hx with rfl | hx
      · exact Nat.le_of_not_lt hlt
      · exact hc x hx

/-- Insertion appends the new index at the end of its key class: on a
sorted prefix, equal keys are never crossed. -/
theorem insL_filter (v : Array Nat) (i : Nat) (acc : List Nat)
    (h : acc.Pairwise (keyLe v)) (k : Nat) :
    (insL v i acc).filter (fun j => v.getD j 0 = k) =
      acc.filter (fun j => v.getD j 0 = k) ++
        (if v.getD i 0 = k then [i] else []) := by
  induction acc with
  | nil =>
    simp only [insL, List.filter_cons, List.filter_nil, decide_eq_true_eq,
      List.nil_append]
  | cons c cs ih =>
    rw [List.pairwise_cons] at h
    obtain ⟨hc, hcs⟩ := h
    by_cases hlt : v.getD i 0 < v.getD c 0
    · simp only [insL, hlt, if_true]
      by_cases hk : v.getD i 0 = k
      · have hclass : (c :: cs).filter (fun j => v.getD j 0 = k) = [] := by
          rw [List.filter_eq_nil_iff]
          intro x hx
          have hle : v.getD c 0 ≤ v.getD x 0 := by
            rcases List.mem_cons.1 hx with rfl | hx
            · exact Nat.le_refl _
            · exact hc x hx
          have hgt : k < v.getD x 0 := Nat.lt_of_lt_of_le (hk ▸ hlt) hle
          intro h'
          have := of_decide_eq_true h'
          omega
        rw [List.filter_cons, hclass, if_pos (decide_eq_true hk), if_pos hk,
          List.nil_append]
      · rw [List.filter_cons, if_neg (fun h' => hk (of_decide_eq_true h')),
          if_neg hk, List.append_nil]
    · simp only [insL, hlt, Bool.false_eq_true, if_false]
      rw [List.filter_cons, List.filter_cons, ih hcs]
      by_cases hck : v.getD c 0 = k
      · rw [if_pos (decide_eq_true hck), if_pos (decide_eq_true hck),
          List.cons_append]
      · rw [if_neg (fun h' => hck (of_decide_eq_true h')),
          if_neg (fun h' => hck (of_decide_eq_true h'))]

/-- The insertion-sort fold: sortedness and per-key-class order
preservation, generalised over the accumulated prefix. -/
theorem insFold_pairwise_filter (v : Array Nat) :
    ∀ (seg acc : List Nat), acc.Pairwise (keyLe v) →
      (seg.foldl (fun acc i => insL v i acc) acc).Pairwise (keyLe v) ∧
      ∀ k, (seg.foldl (fun acc i => insL v i acc) acc).filter
              (fun j => v.getD j 0 = k) =
            acc.filter (fun j => v.getD j 0 = k) ++
              seg.filter (fun j => v.getD j 0 = k) := by
  intro seg
  induction seg with
  | nil => intro acc h; exact ⟨h, fun k => by simp⟩
  | cons i seg ih =>
    intro acc h
    have h' := insL_pairwise v i acc h
    obtain ⟨hp, hf⟩ := ih (insL v i acc) h'
    refine ⟨hp, fun k => ?_⟩
    rw [List.foldl_cons] at *
    rw [hf k, insL_filter v i acc h k, List.filter_cons]
    by_cases hk : v.getD i 0 = k
    · rw [if_pos hk, if_pos (decide_eq_true hk), List.append_assoc,
        List.singleton_append]
    · rw [if_neg hk, if_neg (fun h' => hk (of_decide_eq_true h')),
        List.append_nil]

/-- The insertion-sort pass returns a sorted index list. -/
theorem npInsArgsort_pairwise (v : Array Nat) (seg : List Nat) :
    (npInsArgsort v seg).Pairwise (keyLe v) :=
  (insFold_pairwise_filter v seg [] List.Pairwise.nil).1

/-- The insertion-sort pass preserves the order within every key class. -/
theorem npInsArgsort_filter (v : Array Nat) (seg : List Nat) (k : Nat) :
    (npInsArgsort v seg).filter (fun j => v.getD j 0 = k) =
      seg.filter (fun j => v.getD j 0 = k) := by
  have := ((insFold_pairwise_filter v seg [] List.Pairwise.nil).2) k
  simpa [npInsArgsort] using this

/-- Membership is preserved by the insertion-sort pass. -/
theorem mem_npInsArgsort (v : Array Nat) (seg : List Nat) (x : Nat) :
    x ∈ npInsArgsort v seg ↔ x ∈ seg := by
  have hgen : ∀ (s acc : List Nat),
      x ∈ s.foldl (fun acc i => insL v i acc) acc ↔ x ∈ acc ∨ x ∈ s := by
    intro s
    induction s with
    | nil => intro acc; simp
    | cons i s ih =>
      intro acc
      rw [List.foldl_cons, ih (insL v i acc), mem_insL]
      simp
      tauto
  have := hgen seg []
  simpa [npInsArgsort] using this

/-! Behaviour of the `sort_values` model on at most 16 rows: the introsort
guard `pr - pl > SMALL_QUICKSORT` fails immediately, so the whole argsort is
one stable insertion-sort pass. -/

set_option maxHeartbeats 1000000 in
/-- On at most 16 elements the argsort is the insertion-sort pass. -/
theorem npArgsortQuick_small (v : Array Nat) (h : v.size ≤ 16) :
    npArgsortQuick v = npInsArgsort v (List.range v.size) := by
  have h1 : npIntrosort v (v.size + 1) (List.range v.size)
        (2 * (npyGetMsb v.size : Int)) =
      (npInsArgsort v (List.range v.size), 2 * (npyGetMsb v.size : Int)) := by
    rw [npIntrosort]
    rw [if_pos (by simpa using h)]
  rw [npArgsortQuick, h1]

/-- Key array bridge: position `i` of the key column holds the
term-sequence-number of row `i`. -/
theorem termKeys_getD (l : List RhsOut) (i : Nat) (hi : i < l.length) :
    ((l.map (·.term_ID)).toArray).getD i 0 = (l.getD i default).term_ID := by
  rw [Array.getD_eq_get?, List.getD_eq_getElem l default hi]
  simp [List.getElem?_eq_getElem, hi]

/-- On at most 16 rows, `sort_values(by='term_ID')` is sorted ascending by
term-sequence-number. -/
theorem sortByTermId_small_sorted (l : List RhsOut) (h : l.length ≤ 16) :
    (sortByTermId l).Pairwise (fun a b => a.term_ID ≤ b.term_ID) := by
  have hsz : ((l.map (·.term_ID)).toArray).size = l.length := by simp
  have hargs : npArgsortQuick ((l.map (·.term_ID)).toArray) =
      npInsArgsort ((l.map (·.term_ID)).toArray)
        (List.range ((l.map (·.term_ID)).toArray).size) :=
    npArgsortQuick_small _ (by rw [hsz]; exact h)
  have hmem : ∀ i ∈ npInsArgsort ((l.map (·.term_ID)).toArray)
      (List.range ((l.map (·.term_ID)).toArray).size), i < l.length := by
    intro i hi
    have := (mem_npInsArgsort _ _ _).1 hi
    rw [List.mem_range, hsz] at this
    exact this
  show ((npArgsortQuick ((l.map (·.term_ID)).toArray)).filterMap
      (fun i => l.get? i)).Pairwise _
  rw [hargs, filterMap_get?_eq_map _ _ hmem, List.pairwise_map]
  refine List.Pairwise.imp_of_mem ?_
    (npInsArgsort_pairwise ((l.map (·.term_ID)).toArray)
      (List.range ((l.map (·.term_ID)).toArray).size))
  intro a b ha hb hr
  have ha' := hmem a ha
  have hb' := hmem b hb
  rw [keyLe, termKeys_getD l a ha', termKeys_getD l b hb'] at hr
  exact hr

/-- On at most 16 rows, `sort_values(by='term_ID')` preserves the fetch
order within every class of equal term-sequence-numbers (it is one stable
insertion-sort pass). -/
theorem sortByTermId_small_filter (l : List RhsOut) (h : l.length ≤ 16) (k : Nat) :
    (sortByTermId l).filter (fun o => o.term_ID = k) =
      l.filter (fun o => o.term_ID = k) := by
  have hsz : ((l.map (·.term_ID)).toArray).size = l.length := by simp
  have hargs : npArgsortQuick ((l.map (·.term_ID)).toArray) =
      npInsArgsort ((l.map (·.term_ID)).toArray)
        (List.range ((l.map (·.term_ID)).toArray).size) :=
    npArgsortQuick_small _ (by rw [hsz]; exact h)
  have hmem : ∀ i ∈ npInsArgsort ((l.map (·.term_ID)).toArray)
      (List.range ((l.map (·.term_ID)).toArray).size), i < l.length := by
    intro i hi
    have := (mem_npInsArgsort _ _ _).1 hi
    rw [List.mem_range, hsz] at this
    exact this
  show ((npArgsortQuick ((l.map (·.term_ID)).toArray)).filterMap
      (fun i => l.get? i)).filter _ = _
  rw [hargs, filterMap_get?_eq_map _ _ hmem, List.filter_map]
  have hcongr1 : (npInsArgsort ((l.map (·.term_ID)).toArray)
        (List.range ((l.map (·.term_ID)).toArray).size)).filter
      ((fun o => decide (o.term_ID = k)) ∘ (fun i => l.getD i default)) =
      (npInsArgsort ((l.map (·.term_ID)).toArray)
        (List.range ((l.map (·.term_ID)).toArray).size)).filter
      (fun j => decide (((l.map (·.term_ID)).toArray).getD j 0 = k)) := by
    refine List.filter_congr ?_
    intro j hj
    have hj' := hmem j hj
    simp only [Function.comp, termKeys_getD l j hj']
  have hcongr2 : (List.range ((l.map (·.term_ID)).toArray).size).filter
      (fun j => decide (((l.map (·.term_ID)).toArray).getD j 0 = k)) =
      (List.range l.length).filter
        (fun i => (fun o => decide (o.term_ID = k)) (l.getD i default)) := by
    rw [hsz]
    refine List.filter_congr ?_
    intro j hj
    rw [List.mem_range] at hj
    simp only [termKeys_getD l j hj]
  rw [hcongr1, npInsArgsort_filter, hcongr2,
    range_filter_getD (fun o => decide (o.term_ID = k)) l]

/-- Every row of the sorted output is one of the input rows. -/
theorem mem_sortByTermId (l : List RhsOut) (o : RhsOut) (h : o ∈ sortByTermId l) :
    o ∈ l :=
  mem_of_mem_filterMap_get? _ _ _ h

/-! Unfolding lemmas for the backward searches. -/

/-- Valid month-stepping decreases the month index by exactly one. -/
theorem monthIdx_monthsBack (d : PDate) (h : monthStepOk d = true) :
    monthIdx (monthsBack d) + 1 = monthIdx d := by
  have h' : 1 ≤ d.year ∧ 1 ≤ d.month ∧ d.month ≤ 12 ∧ ¬(d.year = 1 ∧ d.month = 1) := by
    simp only [monthStepOk, Bool.and_eq_true, decide_eq_true_eq, Bool.not_eq_true',
      Bool.and_eq_false_iff, decide_eq_false_iff_not] at h
    tauto
  obtain ⟨hy, hm1, hm12, hne⟩ := h'
  by_cases hm : d.month = 1
  · have hy2 : d.year ≠ 1 := fun h1 => hne ⟨h1, hm⟩
    unfold monthsBack monthIdx
    rw [if_pos hm]
    show (d.year - 1) * 12 + 12 + 1 = d.year * 12 + d.month
    omega
  · unfold monthsBack monthIdx
    rw [if_neg hm]
    show d.year * 12 + (d.month - 1) + 1 = d.year * 12 + d.month
    omega

/-- A search that starts at or before the boundary performs no fetch and
returns the empty result with `found = False`. -/
theorem find_constraint_stop (env : Env) (c : String) (s e : PDate)
    (h : pdLt s e = false) : find_constraint env c s e = .ok ([], false) := by
  rw [find_constraint, find_constraint_loop, if_neg (by rw [h]; exact Bool.false_ne_true)]

/-- One unsuccessful probe steps the search back exactly one month. -/
theorem find_constraint_step (env : Env) (c : String) (s e : PDate)
    (t : List RegRow) (hlt : pdLt s e = true) (hstep : monthStepOk e = true)
    (hfetch : env.gencondata e.month e.year = .ok t)
    (hempty : (dropTrailer t).filter (fun r => strStartsWith (regGenconid r) c) = []) :
    find_constraint env c s e = find_constraint env c s (monthsBack e) := by
  rw [find_constraint, find_constraint, monthIdx_monthsBack e hstep]
  rw [find_constraint_loop, if_pos hlt, hfetch]
  simp only [hempty, if_pos hstep, List.isEmpty_nil, if_true]

/-- A probe with at least one matching record ends the search, returning
all matching records of that month (columns 0, 2, 3 dropped) in source
order. -/
theorem find_constraint_found (env : Env) (c : String) (s e : PDate)
    (t : List RegRow) (hlt : pdLt s e = true) (hstep : monthStepOk e = true)
    (hfetch : env.gencondata e.month e.year = .ok t)
    (hmatch : ((dropTrailer t).filter (fun r => strStartsWith (regGenconid r) c)).isEmpty = false) :
    find_constraint env c s e =
      .ok (((dropTrailer t).filter (fun r => strStartsWith (regGenconid r) c)).map dropCols013,
        true) := by
  rw [find_constraint, find_constraint_loop, if_pos hlt, hfetch]
  simp only [if_pos hstep, hmatch, Bool.false_eq_true, if_false]

/-- A fetch failure at the probed month aborts the whole constraint
search with that error. -/
theorem find_constraint_error (env : Env) (c : String) (s e : PDate) (ε : Ferr)
    (hlt : pdLt s e = true) (hfetch : env.gencondata e.month e.year = .error ε) :
    find_constraint env c s e = .error ε := by
  rw [find_constraint, find_constraint_loop, if_pos hlt, hfetch]

/-- Boundary case of the generic-function search. -/
theorem find_generic_stop (env : Env) (eid : String) (s e : PDate)
    (h : pdLt s e = false) : find_generic_RHS_func env eid s e = .ok ([], false) := by
  rw [find_generic_RHS_func, find_generic_RHS_func_loop,
    if_neg (by rw [h]; exact Bool.false_ne_true)]

/-- Unsuccessful-probe step of the generic-function search. -/
theorem find_generic_step (env : Env) (eid : String) (s e : PDate)
    (t : List RegRow) (hlt : pdLt s e = true) (hstep : monthStepOk e = true)
    (hfetch : env.genericequationdesc e.month e.year = .ok t)
    (hempty : (dropTrailer t).filter (fun r => strStartsWith (regEquationid r) eid) = []) :
    find_generic_RHS_func env eid s e = find_generic_RHS_func env eid s (monthsBack e) := by
  rw [find_generic_RHS_func, find_generic_RHS_func, monthIdx_monthsBack e hstep]
  rw [find_generic_RHS_func_loop, if_pos hlt, hfetch]
  simp only [hempty, if_pos hstep, List.isEmpty_nil, if_true]

/-- Successful probe of the generic-function search. -/
theorem find_generic_found (env : Env) (eid : String) (s e : PDate)
    (t : List RegRow) (hlt : pdLt s e = true) (hstep : monthStepOk e = true)
    (hfetch : env.genericequationdesc e.month e.year = .ok t)
    (hmatch : ((dropTrailer t).filter (fun r => strStartsWith (regEquationid r) eid)).isEmpty = false) :
    find_generic_RHS_func env eid s e =
      .ok (((dropTrailer t).filter (fun r => strStartsWith (regEquationid r) eid)).map dropCols013,
        true) := by
  rw [find_generic_RHS_func, find_generic_RHS_func_loop, if_pos hlt, hfetch]
  simp only [if_pos hstep, hmatch, Bool.false_eq_true, if_false]

/-- Fetch failure aborts the generic-function search. -/
theorem find_generic_error (env : Env) (eid : String) (s e : PDate) (ε : Ferr)
    (hlt : pdLt s e = true) (hfetch : env.genericequationdesc e.month e.year = .error ε) :
    find_generic_RHS_func env eid s e = .error ε := by
  rw [find_generic_RHS_func, find_generic_RHS_func_loop, if_pos hlt, hfetch]

/-! Unfolding lemmas for the term resolvers. -/

/-- Closed form of `get_RHS_terms` when both fetches succeed. -/
theorem get_RHS_terms_eq (env : Env) (c : String) (m y : Nat)
    (t : List RhsSrcRow) (ems : List EmsRow)
    (ht : env.genericconstraintrhs m y = .ok t)
    (hems : env.emsmaster m y = .ok ems) :
    get_RHS_terms env c m y =
      .ok (sortByTermId (((dropTrailer t).filter (fun r => r.owner_id = c)).map
        (mkRhsOut (dropTrailer ems)))) := by
  rw [get_RHS_terms, get_mms_table_GENERICCONSTRAINTRHS, ht]
  show (if ((dropTrailer t).filter (fun r => r.owner_id = c)).isEmpty then _ else _ : Except Ferr _) = _
  by_cases hempty : ((dropTrailer t).filter (fun r => r.owner_id = c)).isEmpty
  · rw [if_pos hempty]
    rw [List.isEmpty_iff] at hempty
    rw [hempty, List.map_nil]
    rfl
  · rw [if_neg hempty, get_mms_table_EMSMASTER, hems]
    rfl

/-- Closed form of `get_generic_RHS_func` when both fetches succeed. -/
theorem get_generic_RHS_func_eq (env : Env) (eid : String) (m y : Nat)
    (t : List RhsSrcRow) (ems : List EmsRow)
    (ht : env.genericequationrhs m y = .ok t)
    (hems : env.emsmaster m y = .ok ems) :
    get_generic_RHS_func env eid m y =
      .ok (sortByTermId (((dropTrailer t).filter (fun r => r.owner_id = eid)).map
        (mkRhsOutGeneric (dropTrailer ems)))) := by
  rw [get_generic_RHS_func, get_mms_table_GENERICEQUATIONRHS, ht]
  show (if ((dropTrailer t).filter (fun r => r.owner_id = eid)).isEmpty then _ else _ : Except Ferr _) = _
  by_cases hempty : ((dropTrailer t).filter (fun r => r.owner_id = eid)).isEmpty
  · rw [if_pos hempty]
    rw [List.isEmpty_iff] at hempty
    rw [hempty, List.map_nil]
    rfl
  · rw [if_neg hempty, get_mms_table_EMSMASTER, hems]
    rfl

/-- Closed form of `get_LHS_terms` when all four fetches succeed. -/
theorem get_LHS_terms_eq (env : Env) (c : String) (m y : Nat)
    (t1 : List CPRow) (t2 : List ICRow) (t3 : List RegionRow) (t4 : List DudRow)
    (h1 : env.spdconnectionpointconstraint m y = .ok t1)
    (h2 : env.spdinterconnectorconstraint m y = .ok t2)
    (h3 : env.spdregionconstraint m y = .ok t3)
    (h4 : env.dudetail m y = .ok t4) :
    get_LHS_terms env c m y =
      .ok ((((dropTrailer t1).filter (fun r => r.genconid = c)).map (fun r =>
            { type := "CONNECTIONPOINT", ID := r.connectionpointid,
              DUID := dudLookup (dropTrailer t4) r.connectionpointid,
              factor := r.factor, bidtype := r.bidtype })) ++
          (((dropTrailer t2).filter (fun r => r.genconid = c)).map (fun r =>
            { type := "INTERCONNECTOR", ID := r.interconnectorid,
              DUID := r.interconnectorid, factor := r.factor,
              bidtype := "N/A" : LhsOut })) ++
          (((dropTrailer t3).filter (fun r => r.genconid = c)).map (fun r =>
            { type := "REGION", ID := r.regionid, DUID := r.regionid,
              factor := r.factor, bidtype := "N/A" : LhsOut }))) := by
  rw [get_LHS_terms, get_mms_table_SPDCONNECTIONPOINTCONSTRAINT, h1]
  show Except.bind _ _ = _
  by_cases hempty : ((dropTrailer t1).filter (fun r => r.genconid = c)).isEmpty
  · have hnil : (dropTrailer t1).filter (fun r => r.genconid = c) = [] :=
      List.isEmpty_iff.1 hempty
    simp only [Except.bind, hempty, if_true, hnil, List.map_nil,
      get_mms_table_SPDINTERCONNECTORCONSTRAINT, h2,
      get_mms_table_SPDREGIONCONSTRAINT, h3]
    rfl
  · have hfalse : ((dropTrailer t1).filter (fun r => r.genconid = c)).isEmpty = false :=
      Bool.eq_false_iff.2 hempty
    simp only [Except.bind, hfalse, Bool.false_eq_true, if_false,
      get_mms_table_DUDETAIL, h4,
      get_mms_table_SPDINTERCONNECTORCONSTRAINT, h2,
      get_mms_table_SPDREGIONCONSTRAINT, h3]
    rfl

/-! Claim C1. -/

/-- Counterexample to C1: in `envJunGap` the June 2022 `GENCONDATA` archive
is absent while May 2022 holds a matching record.  Instead of treating the
missing month as "no match this month" and continuing backward to May
(where the claimed behaviour would succeed), `find_constraint` aborts the
whole search with the fetch error — the loop body has no `try`/`except`. -/
theorem find_constraint_gap_aborts_cex :
    find_constraint envJunGap "Q" ⟨2009, 7, 1⟩ ⟨2022, 6, 15⟩ = .error .notFound ∧
    envJunGap.gencondata 5 2022 = .ok [rowQ1, trailerReg] :=
  ⟨rfl, rfl⟩

/-- C1 (amended): during a backward search (`find_constraint` or
`find_generic_RHS_func`), a fetch failure (such as `NotFoundError` for an
absent archive) at the currently probed month makes the whole search return
that error — the prior months are never tried.  Since every unsuccessful
probe reduces the search to a fresh search from the prior month, this
covers each month the scan reaches. -/
theorem backward_search_aborts_on_fetch_error (env : Env) (c eid : String)
    (s cur : PDate) (ε ε' : Ferr) (h : pdLt s cur = true) :
    (env.gencondata cur.month cur.year = .error ε →
      find_constraint env c s cur = .error ε) ∧
    (env.genericequationdesc cur.month cur.year = .error ε' →
      find_generic_RHS_func env eid s cur = .error ε') :=
  ⟨fun hf => find_constraint_error env c s cur ε h hf,
   fun hf => find_generic_error env eid s cur ε' h hf⟩

/-- Witness for C1's amended theorem at the June 2022 archive gap. -/
theorem backward_search_aborts_on_fetch_error_witness :
    find_constraint envJunGap "Q" ⟨2009, 7, 1⟩ ⟨2022, 6, 15⟩ = .error .notFound ∧
    find_generic_RHS_func envJunGap "F" ⟨2009, 7, 1⟩ ⟨2022, 6, 15⟩ = .error .notFound := by
  have h := backward_search_aborts_on_fetch_error envJunGap "Q" "F"
    ⟨2009, 7, 1⟩ ⟨2022, 6, 15⟩ .notFound .notFound rfl
  exact ⟨h.1 rfl, h.2 rfl⟩

/-! Claim C2. -/

/-- Counterexample to C2: with `start_date` 3 June 2022 and `end_date`
15 June 2022, the source probes June 2022 (the probe date keeps its day
component and 15 June is after 3 June) and succeeds, while the search the
claim describes — probe dates truncated to the first of the month — stops
at once (1 June is not strictly after 3 June) and reports `found = False`. -/
theorem find_constraint_truncation_cex :
    find_constraint envJunMatch "Q" ⟨2022, 6, 3⟩ ⟨2022, 6, 15⟩ =
      .ok ([dropCols013 rowQ1, dropCols013 rowQ2], true) ∧
    find_constraint_specTruncated envJunMatch "Q" ⟨2022, 6, 3⟩ ⟨2022, 6, 15⟩ =
      .ok ([], false) :=
  ⟨rfl, rfl⟩

/-- C2 (amended): the first probe uses `end_date` unchanged (so the first
month probed is `end_date`'s month, with the day component retained); on a
no-match month the probe date steps back exactly one month
(`relativedelta`, day clamped); the search stops unsuccessfully with
`found = False` and an empty result as soon as the probe date — retaining
its day component — is not strictly after `start_date`; and a probe month
with a match ends the search at once. -/
theorem backward_search_step_behaviour (env : Env) (c eid : String) (s e : PDate) :
    (pdLt s e = false →
      find_constraint env c s e = .ok ([], false) ∧
      find_generic_RHS_func env eid s e = .ok ([], false)) ∧
    (∀ t, pdLt s e = true → monthStepOk e = true →
      env.gencondata e.month e.year = .ok t →
      (dropTrailer t).filter (fun r => strStartsWith (regGenconid r) c) = [] →
      find_constraint env c s e = find_constraint env c s (monthsBack e)) ∧
    (∀ t, pdLt s e = true → monthStepOk e = true →
      env.gencondata e.month e.year = .ok t →
      ((dropTrailer t).filter (fun r => strStartsWith (regGenconid r) c)).isEmpty = false →
      find_constraint env c s e =
        .ok (((dropTrailer t).filter
          (fun r => strStartsWith (regGenconid r) c)).map dropCols013, true)) ∧
    (∀ t, pdLt s e = true → monthStepOk e = true →
      env.genericequationdesc e.month e.year = .ok t →
      (dropTrailer t).filter (fun r => strStartsWith (regEquationid r) eid) = [] →
      find_generic_RHS_func env eid s e = find_generic_RHS_func env eid s (monthsBack e)) ∧
    (∀ t, pdLt s e = true → monthStepOk e = true →
      env.genericequationdesc e.month e.year = .ok t →
      ((dropTrailer t).filter (fun r => strStartsWith (regEquationid r) eid)).isEmpty = false →
      find_generic_RHS_func env eid s e =
        .ok (((dropTrailer t).filter
          (fun r => strStartsWith (regEquationid r) eid)).map dropCols013, true)) :=
  ⟨fun h => ⟨find_constraint_stop env c s e h, find_generic_stop env eid s e h⟩,
   fun t h1 h2 h3 h4 => find_constraint_step env c s e t h1 h2 h3 h4,
   fun t h1 h2 h3 h4 => find_constraint_found env c s e t h1 h2 h3 h4,
   fun t h1 h2 h3 h4 => find_generic_step env eid s e t h1 h2 h3 h4,
   fun t h1 h2 h3 h4 => find_generic_found env eid s e t h1 h2 h3 h4⟩

/-- Witness for C2's amended theorem: stop, step and found behaviour at
concrete dates and archives. -/
theorem backward_search_step_behaviour_witness :
    find_constraint envJunMatch "Q" ⟨2022, 6, 3⟩ ⟨2022, 6, 1⟩ = .ok ([], false) ∧
    find_generic_RHS_func envJunMatch "F" ⟨2022, 6, 3⟩ ⟨2022, 6, 1⟩ = .ok ([], false) ∧
    find_constraint envJunEmptyMayMatch "Q" ⟨2009, 7, 1⟩ ⟨2022, 6, 15⟩ =
      find_constraint envJunEmptyMayMatch "Q" ⟨2009, 7, 1⟩ (monthsBack ⟨2022, 6, 15⟩) ∧
    find_generic_RHS_func envJunEmptyMayMatch "F" ⟨2009, 7, 1⟩ ⟨2022, 6, 15⟩ =
      find_generic_RHS_func envJunEmptyMayMatch "F" ⟨2009, 7, 1⟩ (monthsBack ⟨2022, 6, 15⟩) ∧
    find_constraint envJunMatch "Q" ⟨2022, 6, 3⟩ ⟨2022, 6, 15⟩ =
      .ok ([dropCols013 rowQ1, dropCols013 rowQ2], true) ∧
    find_generic_RHS_func envJunMatch "F" ⟨2022, 6, 3⟩ ⟨2022, 6, 15⟩ =
      .ok ([dropCols013 rowE1], true) := by
  refine ⟨((backward_search_step_behaviour envJunMatch "Q" "F" ⟨2022, 6, 3⟩ ⟨2022, 6, 1⟩).1 rfl).1,
    ((backward_search_step_behaviour envJunMatch "Q" "F" ⟨2022, 6, 3⟩ ⟨2022, 6, 1⟩).1 rfl).2,
    (backward_search_step_behaviour envJunEmptyMayMatch "Q" "F" ⟨2009, 7, 1⟩
      ⟨2022, 6, 15⟩).2.1 [trailerReg] rfl rfl rfl rfl,
    (backward_search_step_behaviour envJunEmptyMayMatch "Q" "F" ⟨2009, 7, 1⟩
      ⟨2022, 6, 15⟩).2.2.2.1 [trailerReg] rfl rfl rfl rfl,
    (backward_search_step_behaviour envJunMatch "Q" "F" ⟨2022, 6, 3⟩
      ⟨2022, 6, 15⟩).2.2.1 [rowQ1, rowQ2, trailerReg] rfl rfl rfl rfl,
    (backward_search_step_behaviour envJunMatch "Q" "F" ⟨2022, 6, 3⟩
      ⟨2022, 6, 15⟩).2.2.2.2 [rowE1, trailerReg] rfl rfl rfl rfl⟩

/-! Claim C3. -/

/-- Counterexample to C3: `get_mms_table` returns the parsed archive rows
unchanged — its output still ends with the trailer row; the drop happens at
each caller, not inside the fetch. -/
theorem get_mms_table_keeps_trailer_cex :
    get_mms_table_GENCONDATA envJunMatch 6 2022 = .ok [rowQ1, rowQ2, trailerReg] ∧
    ([rowQ1, rowQ2, trailerReg] : List RegRow).getLast? = some trailerReg ∧
    ([rowQ1, rowQ2, trailerReg] : List RegRow) ≠ dropTrailer [rowQ1, rowQ2, trailerReg] :=
  ⟨rfl, rfl, by decide⟩

/-- C3 (amended): the fetch returns the table with the trailer row still
present; every caller drops the last record itself right after fetching
(`df.drop(index=df.index[-1])`, modelled by `dropTrailer`), and that drop
removes exactly the last row and preserves the relative order of the rest
(the result is a prefix of the raw table). -/
theorem dropTrailer_drops_last_row {α : Type} (l : List α) (a : α)
    (h : l.getLast? = some a) :
    dropTrailer l ++ [a] = l ∧ (dropTrailer l).length + 1 = l.length ∧
      dropTrailer l <+: l := by
  have hne : l ≠ [] := by
    intro hnil
    rw [hnil] at h
    exact Option.noConfusion h
  have hlast : l.getLast hne = a := by
    have := List.getLast?_eq_getLast l hne
    rw [h] at this
    exact (Option.some.inj this).symm
  have happ : dropTrailer l ++ [a] = l := by
    rw [← hlast]
    exact List.dropLast_append_getLast hne
  refine ⟨happ, ?_, ⟨[a], happ⟩⟩
  have hpos : 1 ≤ l.length := List.length_pos.2 hne
  rw [dropTrailer, List.length_dropLast]
  omega

/-- Witness for C3's amended theorem on a two-row archive. -/
theorem dropTrailer_drops_last_row_witness :
    ([rowQ1, trailerReg] : List RegRow).getLast? = some trailerReg ∧
    (dropTrailer [rowQ1, trailerReg] ++ [trailerReg] = ([rowQ1, trailerReg] : List RegRow) ∧
      (dropTrailer ([rowQ1, trailerReg] : List RegRow)).length + 1 =
        ([rowQ1, trailerReg] : List RegRow).length ∧
      dropTrailer ([rowQ1, trailerReg] : List RegRow) <+: [rowQ1, trailerReg]) :=
  ⟨rfl, dropTrailer_drops_last_row [rowQ1, trailerReg] trailerReg rfl⟩

/-! Claim C7. -/

/-- If the k-th backward probe is the first whose `GENCONDATA` table has a
match, `find_constraint` returns all matching records of that month. -/
theorem find_constraint_first_match (env : Env) (c : String) (s : PDate) :
    ∀ (k : Nat) (e : PDate) (t : List RegRow),
    (∀ j, j < k → pdLt s (monthsBack^[j] e) = true ∧
        monthStepOk (monthsBack^[j] e) = true ∧
        ∃ tj, env.gencondata (monthsBack^[j] e).month (monthsBack^[j] e).year = .ok tj ∧
          (dropTrailer tj).filter (fun r => strStartsWith (regGenconid r) c) = []) →
    pdLt s (monthsBack^[k] e) = true →
    monthStepOk (monthsBack^[k] e) = true →
    env.gencondata (monthsBack^[k] e).month (monthsBack^[k] e).year = .ok t →
    ((dropTrailer t).filter (fun r => strStartsWith (regGenconid r) c)).isEmpty = false →
    find_constraint env c s e =
      .ok (((dropTrailer t).filter
        (fun r => strStartsWith (regGenconid r) c)).map dropCols013, true) := by
  intro k
  induction k with
  | zero =>
    intro e t _ hcur hstep hfetch hmatch
    simp only [Function.iterate_zero_apply] at hcur hstep hfetch
    exact find_constraint_found env c s e t hcur hstep hfetch hmatch
  | succ k ih =>
    intro e t hprior hcur hstep hfetch hmatch
    obtain ⟨h0lt, h0step, t0, h0fetch, h0empty⟩ := hprior 0 (Nat.succ_pos k)
    simp only [Function.iterate_zero_apply] at h0lt h0step h0fetch h0empty
    rw [find_constraint_step env c s e t0 h0lt h0step h0fetch h0empty]
    rw [Function.iterate_succ_apply] at hcur hstep hfetch
    refine ih (monthsBack e) t ?_ hcur hstep hfetch hmatch
    intro j hj
    have hj1 := hprior (j + 1) (by omega)
    have hiter : monthsBack^[j + 1] e = monthsBack^[j] (monthsBack e) :=
      Function.iterate_succ_apply monthsBack j e
    rw [hiter] at hj1
    exact hj1

/-- Generic-equation twin of `find_constraint_first_match`. -/
theorem find_generic_first_match (env : Env) (eid : String) (s : PDate) :
    ∀ (k : Nat) (e : PDate) (t : List RegRow),
    (∀ j, j < k → pdLt s (monthsBack^[j] e) = true ∧
        monthStepOk (monthsBack^[j] e) = true ∧
        ∃ tj, env.genericequationdesc (monthsBack^[j] e).month (monthsBack^[j] e).year = .ok tj ∧
          (dropTrailer tj).filter (fun r => strStartsWith (regEquationid r) eid) = []) →
    pdLt s (monthsBack^[k] e) = true →
    monthStepOk (monthsBack^[k] e) = true →
    env.genericequationdesc (monthsBack^[k] e).month (monthsBack^[k] e).year = .ok t →
    ((dropTrailer t).filter (fun r => strStartsWith (regEquationid r) eid)).isEmpty = false →
    find_generic_RHS_func env eid s e =
      .ok (((dropTrailer t).filter
        (fun r => strStartsWith (regEquationid r) eid)).map dropCols013, true) := by
  intro k
  induction k with
  | zero =>
    intro e t _ hcur hstep hfetch hmatch
    simp only [Function.iterate_zero_apply] at hcur hstep hfetch
    exact find_generic_found env eid s e t hcur hstep hfetch hmatch
  | succ k ih =>
    intro e t hprior hcur hstep hfetch hmatch
    obtain ⟨h0lt, h0step, t0, h0fetch, h0empty⟩ := hprior 0 (Nat.succ_pos k)
    simp only [Function.iterate_zero_apply] at h0lt h0step h0fetch h0empty
    rw [find_generic_step env eid s e t0 h0lt h0step h0fetch h0empty]
    rw [Function.iterate_succ_apply] at hcur hstep hfetch
    refine ih (monthsBack e) t ?_ hcur hstep hfetch hmatch
    intro j hj
    have hj1 := hprior (j + 1) (by omega)
    have hiter : monthsBack^[j + 1] e = monthsBack^[j] (monthsBack e) :=
      Function.iterate_succ_apply monthsBack j e
    rw [hiter] at hj1
    exact hj1

/-- Counterexample to C7: a successful search does not return "the single
first matching record" — with two matching records in June 2022 the whole
two-row filtered table comes back (the first matching record is only
printed, via `df.iloc[0]`). -/
theorem find_constraint_single_record_cex :
    find_constraint envJunMatch "Q_TEST" ⟨2022, 6, 3⟩ ⟨2022, 6, 15⟩ =
      .ok ([dropCols013 rowQ1, dropCols013 rowQ2], true) ∧
    [dropCols013 rowQ1, dropCols013 rowQ2].length ≠ 1 :=
  ⟨rfl, by decide⟩

/-- C7 (amended): whenever a backward search succeeds (`found = True`), the
result is the full list of matching records — in source order, with columns
0, 2, 3 dropped — of the first month, scanning backward from `end_date`,
whose registry table contains at least one record whose identifier starts
with the given prefix; its first row is the first matching record. -/
theorem backward_search_success_returns_first_matching_month
    (env : Env) (c eid : String) (s e : PDate) (k : Nat) (t tg : List RegRow) :
    ((∀ j, j < k → pdLt s (monthsBack^[j] e) = true ∧
        monthStepOk (monthsBack^[j] e) = true ∧
        ∃ tj, env.gencondata (monthsBack^[j] e).month (monthsBack^[j] e).year = .ok tj ∧
          (dropTrailer tj).filter (fun r => strStartsWith (regGenconid r) c) = []) →
      pdLt s (monthsBack^[k] e) = true →
      monthStepOk (monthsBack^[k] e) = true →
      env.gencondata (monthsBack^[k] e).month (monthsBack^[k] e).year = .ok t →
      ((dropTrailer t).filter (fun r => strStartsWith (regGenconid r) c)).isEmpty = false →
      find_constraint env c s e =
        .ok (((dropTrailer t).filter
          (fun r => strStartsWith (regGenconid r) c)).map dropCols013, true)) ∧
    ((∀ j, j < k → pdLt s (monthsBack^[j] e) = true ∧
        monthStepOk (monthsBack^[j] e) = true ∧
        ∃ tj, env.genericequationdesc (monthsBack^[j] e).month (monthsBack^[j] e).year = .ok tj ∧
          (dropTrailer tj).filter (fun r => strStartsWith (regEquationid r) eid) = []) →
      pdLt s (monthsBack^[k] e) = true →
      monthStepOk (monthsBack^[k] e) = true →
      env.genericequationdesc (monthsBack^[k] e).month (monthsBack^[k] e).year = .ok tg →
      ((dropTrailer tg).filter (fun r => strStartsWith (regEquationid r) eid)).isEmpty = false →
      find_generic_RHS_func env eid s e =
        .ok (((dropTrailer tg).filter
          (fun r => strStartsWith (regEquationid r) eid)).map dropCols013, true)) :=
  ⟨find_constraint_first_match env c s k e t,
   find_generic_first_match env eid s k e tg⟩

/-- Witness for C7's amended theorem: a search that succeeds on the second
probed month (constraint path) and one that succeeds on the first probed
month (generic path). -/
theorem backward_search_success_returns_first_matching_month_witness :
    find_constraint envJunEmptyMayMatch "Q" ⟨2009, 7, 1⟩ ⟨2022, 6, 15⟩ =
      .ok ([dropCols013 rowQ1], true) ∧
    find_generic_RHS_func envJunMatch "F" ⟨2022, 6, 3⟩ ⟨2022, 6, 15⟩ =
      .ok ([dropCols013 rowE1], true) := by
  constructor
  · refine (backward_search_success_returns_first_matching_month envJunEmptyMayMatch
      "Q" "F" ⟨2009, 7, 1⟩ ⟨2022, 6, 15⟩ 1 [rowQ1, trailerReg] []).1 ?_ rfl rfl rfl rfl
    intro j hj
    have hj0 : j = 0 := by omega
    subst hj0
    exact ⟨rfl, rfl, [trailerReg], rfl, rfl⟩
  · refine (backward_search_success_returns_first_matching_month envJunMatch
      "Q" "F" ⟨2022, 6, 3⟩ ⟨2022, 6, 15⟩ 0 [] [rowE1, trailerReg]).2 ?_ rfl rfl rfl rfl
    intro j hj
    exact absurd hj (Nat.not_lt_zero j)

/-! Claim C4. -/

/-- Counterexample to C4: seventeen matching RHS rows, all with
term-sequence-number 1, distinguished by `SPD_ID` `r0`..`r16` in fetch
order.  A stable sort would return them in fetch order; numpy's quicksort
(the pandas `sort_values` default, reached because 17 > 16 triggers the
partitioning path) returns them reordered, so equal-key rows do not keep
their original fetch order. -/
theorem get_RHS_terms_sort_unstable_cex :
    ((List.range 17).map rhsRow).map (fun r => r.termid) = List.replicate 17 1 ∧
    (get_RHS_terms envRhs17 "G_FUNC" 6 2022).map (fun l => l.map (fun o => o.ID)) =
      .ok ["r0", "r14", "r13", "r12", "r11", "r10", "r9", "r15", "r8", "r6",
           "r5", "r4", "r3", "r2", "r1", "r7", "r16"] ∧
    (["r0", "r14", "r13", "r12", "r11", "r10", "r9", "r15", "r8", "r6",
      "r5", "r4", "r3", "r2", "r1", "r7", "r16"] : List String) ≠
      ((List.range 17).map rhsRow).map (fun r => r.spd_id) :=
  ⟨rfl, rfl, by decide⟩

/-- C4 (amended): the output of `get_RHS_terms` / `get_generic_RHS_func`
is ordered by numpy's default quicksort argsort on the term-sequence-number;
when at most 16 rows match the identifier, that sort is a single insertion-
sort pass, so the output is sorted ascending by term-sequence-number and
rows with equal term-sequence-numbers keep their original fetch order; with
more than 16 matching rows, equal-key rows may be reordered (the sort is
not stable). -/
theorem rhs_terms_sorted_and_stable_up_to_16 (env : Env) (c eid : String) (m y : Nat)
    (t tg : List RhsSrcRow) (ems : List EmsRow)
    (ht : env.genericconstraintrhs m y = .ok t)
    (htg : env.genericequationrhs m y = .ok tg)
    (hems : env.emsmaster m y = .ok ems) :
    (∀ out, ((dropTrailer t).filter (fun r => r.owner_id = c)).length ≤ 16 →
      get_RHS_terms env c m y = .ok out →
      out.Pairwise (fun a b => a.term_ID ≤ b.term_ID) ∧
      ∀ k, out.filter (fun o => o.term_ID = k) =
        (((dropTrailer t).filter (fun r => r.owner_id = c)).map
          (mkRhsOut (dropTrailer ems))).filter (fun o => o.term_ID = k)) ∧
    (∀ out, ((dropTrailer tg).filter (fun r => r.owner_id = eid)).length ≤ 16 →
      get_generic_RHS_func env eid m y = .ok out →
      out.Pairwise (fun a b => a.term_ID ≤ b.term_ID) ∧
      ∀ k, out.filter (fun o => o.term_ID = k) =
        (((dropTrailer tg).filter (fun r => r.owner_id = eid)).map
          (mkRhsOutGeneric (dropTrailer ems))).filter (fun o => o.term_ID = k)) := by
  constructor
  · intro out hlen hout
    rw [get_RHS_terms_eq env c m y t ems ht hems] at hout
    have hsub := Except.ok.inj hout
    subst hsub
    have hlen' : (((dropTrailer t).filter (fun r => r.owner_id = c)).map
        (mkRhsOut (dropTrailer ems))).length ≤ 16 := by
      rw [List.length_map]
      exact hlen
    exact ⟨sortByTermId_small_sorted _ hlen',
      fun k => sortByTermId_small_filter _ hlen' k⟩
  · intro out hlen hout
    rw [get_generic_RHS_func_eq env eid m y tg ems htg hems] at hout
    have hsub := Except.ok.inj hout
    subst hsub
    have hlen' : (((dropTrailer tg).filter (fun r => r.owner_id = eid)).map
        (mkRhsOutGeneric (dropTrailer ems))).length ≤ 16 := by
      rw [List.length_map]
      exact hlen
    exact ⟨sortByTermId_small_sorted _ hlen',
      fun k => sortByTermId_small_filter _ hlen' k⟩

/-- Output of `get_RHS_terms envRhsSmall "CON_A" 6 2022` (three matching
rows, two of them tied on term-sequence-number 2, in fetch order). -/
def rhsSmallOut : List RhsOut :=
  [{ term_ID := 1, ID := "SPD_G", type := "X",
     description := "Generic RHS function", factor := "0.5", operation := "ADD" },
   { term_ID := 2, ID := "SPD_X1", type := "A",
     description := "first description", factor := "1", operation := "-" },
   { term_ID := 2, ID := "SPD_W", type := "W",
     description := "-", factor := "2", operation := "MUL" }]

/-- Witness for C4's amended theorem on the three-row table. -/
theorem rhs_terms_sorted_and_stable_up_to_16_witness :
    get_RHS_terms envRhsSmall "CON_A" 6 2022 = .ok rhsSmallOut ∧
    rhsSmallOut.Pairwise (fun a b => a.term_ID ≤ b.term_ID) ∧
    rhsSmallOut.filter (fun o => o.term_ID = 2) =
      (((dropTrailer rhsSmallRows).filter (fun r => r.owner_id = "CON_A")).map
        (mkRhsOut (dropTrailer emsSmall))).filter (fun o => o.term_ID = 2) := by
  have h := (rhs_terms_sorted_and_stable_up_to_16 envRhsSmall "CON_A" "CON_A" 6 2022
    rhsSmallRows rhsSmallRows emsSmall rfl rfl rfl).1 rhsSmallOut (by decide) rfl
  exact ⟨rfl, h.1, h.2 2⟩

/-! Claim C5. -/

/-- C5: description resolution of a RHS term row.  On the constraint path,
`spd_type` in {A,S,I,T,R} resolves via exact `SPD_ID` match against
`EMSMASTER` with placeholder `"-"` when no match exists (and the first
match's description otherwise — see `emsLookup`); `spd_type = "X"` always
yields the fixed sentinel `"Generic RHS function"`; any other type yields
`"-"`.  On the generic-function path there is no `"X"` branch: everything
outside {A,S,I,T,R} — including `"X"` — yields `"-"`. -/
theorem rhs_description_resolution (env : Env) (c eid : String) (m y : Nat)
    (t tg : List RhsSrcRow) (ems : List EmsRow)
    (ht : env.genericconstraintrhs m y = .ok t)
    (htg : env.genericequationrhs m y = .ok tg)
    (hems : env.emsmaster m y = .ok ems) :
    (∀ out, get_RHS_terms env c m y = .ok out → ∀ o ∈ out,
      (o.type ∈ (["A", "S", "I", "T", "R"] : List String) →
        o.description = emsLookup (dropTrailer ems) o.ID) ∧
      (o.type = "X" → o.description = "Generic RHS function") ∧
      (o.type ∉ (["A", "S", "I", "T", "R"] : List String) → o.type ≠ "X" →
        o.description = "-")) ∧
    (∀ out, get_generic_RHS_func env eid m y = .ok out → ∀ o ∈ out,
      (o.type ∈ (["A", "S", "I", "T", "R"] : List String) →
        o.description = emsLookup (dropTrailer ems) o.ID) ∧
      (o.type ∉ (["A", "S", "I", "T", "R"] : List String) →
        o.description = "-")) ∧
    (∀ (emsT : List EmsRow) (spdid : String),
      emsT.filter (fun e => e.spd_id = spdid) = [] → emsLookup emsT spdid = "-") ∧
    (∀ (emsT : List EmsRow) (spdid : String) (e : EmsRow) (rest : List EmsRow),
      emsT.filter (fun e => e.spd_id = spdid) = e :: rest →
      emsLookup emsT spdid = e.description) := by
  refine ⟨?_, ?_, ?_, ?_⟩
  case refine_3 =>
    intro emsT spdid hfilter
    rw [emsLookup, hfilter]
    rfl
  case refine_4 =>
    intro emsT spdid e rest hfilter
    rw [emsLookup, hfilter]
    rfl
  · intro out hout o ho
    rw [get_RHS_terms_eq env c m y t ems ht hems] at hout
    have hsub := Except.ok.inj hout
    subst hsub
    have hmem := mem_sortByTermId _ o ho
    rcases List.mem_map.1 hmem with ⟨r, _, rfl⟩
    refine ⟨?_, ?_, ?_⟩
    · intro htype
      have htype' : r.spd_type ∈ (["A", "S", "I", "T", "R"] : List String) := htype
      show rhsDesc (dropTrailer ems) r = emsLookup (dropTrailer ems) r.spd_id
      rw [rhsDesc, if_pos htype']
    · intro hX
      show rhsDesc (dropTrailer ems) r = "Generic RHS function"
      have hX' : r.spd_type = "X" := hX
      have hnot : r.spd_type ∉ (["A", "S", "I", "T", "R"] : List String) := by
        rw [hX']
        decide
      rw [rhsDesc, if_neg hnot, if_pos hX']
    · intro hnot hne
      have hnot' : r.spd_type ∉ (["A", "S", "I", "T", "R"] : List String) := hnot
      have hne' : r.spd_type ≠ "X" := hne
      show rhsDesc (dropTrailer ems) r = "-"
      rw [rhsDesc, if_neg hnot', if_neg hne']
  · intro out hout o ho
    rw [get_generic_RHS_func_eq env eid m y tg ems htg hems] at hout
    have hsub := Except.ok.inj hout
    subst hsub
    have hmem := mem_sortByTermId _ o ho
    rcases List.mem_map.1 hmem with ⟨r, _, rfl⟩
    refine ⟨?_, ?_⟩
    · intro htype
      have htype' : r.spd_type ∈ (["A", "S", "I", "T", "R"] : List String) := htype
      show rhsDescGeneric (dropTrailer ems) r = emsLookup (dropTrailer ems) r.spd_id
      rw [rhsDescGeneric, if_pos htype']
    · intro hnot
      have hnot' : r.spd_type ∉ (["A", "S", "I", "T", "R"] : List String) := hnot
      show rhsDescGeneric (dropTrailer ems) r = "-"
      rw [rhsDescGeneric, if_neg hnot']

/-- Output of `get_generic_RHS_func envRhsSmall "CON_A" 6 2022`: as
`rhsSmallOut` but the `X`-typed row gets `"-"` (no sentinel on this path). -/
def rhsSmallOutGeneric : List RhsOut :=
  [{ term_ID := 1, ID := "SPD_G", type := "X",
     description := "-", factor := "0.5", operation := "ADD" },
   { term_ID := 2, ID := "SPD_X1", type := "A",
     description := "first description", factor := "1", operation := "-" },
   { term_ID := 2, ID := "SPD_W", type := "W",
     description := "-", factor := "2", operation := "MUL" }]

/-- Witness for C5 on the small environment: sentinel for `X` on the
constraint path, `EMSMASTER` resolution for type `A`, `"-"` for other
types, and `"-"` for `X` on the generic path. -/
theorem rhs_description_resolution_witness :
    ((⟨1, "SPD_G", "X", "Generic RHS function", "0.5", "ADD"⟩ : RhsOut).description =
      "Generic RHS function") ∧
    ((⟨2, "SPD_X1", "A", "first description", "1", "-"⟩ : RhsOut).description =
      emsLookup (dropTrailer emsSmall) "SPD_X1") ∧
    ((⟨2, "SPD_W", "W", "-", "2", "MUL"⟩ : RhsOut).description = "-") ∧
    ((⟨1, "SPD_G", "X", "-", "0.5", "ADD"⟩ : RhsOut).description = "-") ∧
    emsLookup (dropTrailer emsSmall) "SPD_NONE" = "-" ∧
    emsLookup (dropTrailer emsSmall) "SPD_X1" = "first description" := by
  have h := rhs_description_resolution envRhsSmall "CON_A" "CON_A" 6 2022
    rhsSmallRows rhsSmallRows emsSmall rfl rfl rfl
  have h1 := h.1 rhsSmallOut rfl
  have h2 := h.2.1 rhsSmallOutGeneric rfl
  refine ⟨(h1 ⟨1, "SPD_G", "X", "Generic RHS function", "0.5", "ADD"⟩ (by decide)).2.1 rfl,
    ?_, (h1 ⟨2, "SPD_W", "W", "-", "2", "MUL"⟩ (by decide)).2.2 (by decide) (by decide),
    (h2 ⟨1, "SPD_G", "X", "-", "0.5", "ADD"⟩ (by decide)).2 (by decide),
    h.2.2.1 (dropTrailer emsSmall) "SPD_NONE" rfl,
    h.2.2.2 (dropTrailer emsSmall) "SPD_X1" ⟨"SPD_X1", "first description"⟩
      [⟨"SPD_X1", "second description"⟩] rfl⟩
  exact (h1 ⟨2, "SPD_X1", "A", "first description", "1", "-"⟩ (by decide)).1 (by decide)

/-! Claim C6. -/

/-- C6: `get_LHS_terms` output is the concatenation, in category order
connection-point → interconnector → region, of the three category tables
filtered by exact constraint-ID match; connection-point rows resolve their
device ID through `DUDETAIL` (`dudLookup`, placeholder `"DUID not found"`),
interconnector and region rows carry their own ID in both `ID` and `DUID`
with `bidtype = "N/A"`; the output length is the sum of the three
filtered-row counts. -/
theorem lhs_terms_concatenation (env : Env) (c : String) (m y : Nat)
    (t1 : List CPRow) (t2 : List ICRow) (t3 : List RegionRow) (t4 : List DudRow)
    (h1 : env.spdconnectionpointconstraint m y = .ok t1)
    (h2 : env.spdinterconnectorconstraint m y = .ok t2)
    (h3 : env.spdregionconstraint m y = .ok t3)
    (h4 : env.dudetail m y = .ok t4) :
    get_LHS_terms env c m y =
      .ok ((((dropTrailer t1).filter (fun r => r.genconid = c)).map (fun r =>
            { type := "CONNECTIONPOINT", ID := r.connectionpointid,
              DUID := dudLookup (dropTrailer t4) r.connectionpointid,
              factor := r.factor, bidtype := r.bidtype })) ++
          (((dropTrailer t2).filter (fun r => r.genconid = c)).map (fun r =>
            { type := "INTERCONNECTOR", ID := r.interconnectorid,
              DUID := r.interconnectorid, factor := r.factor,
              bidtype := "N/A" : LhsOut })) ++
          (((dropTrailer t3).filter (fun r => r.genconid = c)).map (fun r =>
            { type := "REGION", ID := r.regionid, DUID := r.regionid,
              factor := r.factor, bidtype := "N/A" : LhsOut }))) ∧
    (∀ out, get_LHS_terms env c m y = .ok out →
      out.length = ((dropTrailer t1).filter (fun r => r.genconid = c)).length +
        ((dropTrailer t2).filter (fun r => r.genconid = c)).length +
        ((dropTrailer t3).filter (fun r => r.genconid = c)).length) ∧
    (∀ (dudT : List DudRow) (cp : String),
      dudT.filter (fun d => d.connectionpointid = cp) = [] →
      dudLookup dudT cp = "DUID not found") ∧
    (∀ (dudT : List DudRow) (cp : String) (d : DudRow) (rest : List DudRow),
      dudT.filter (fun d => d.connectionpointid = cp) = d :: rest →
      dudLookup dudT cp = d.duid) := by
  have heq := get_LHS_terms_eq env c m y t1 t2 t3 t4 h1 h2 h3 h4
  refine ⟨heq, ?_, ?_, ?_⟩
  case refine_2 =>
    intro dudT cp hfilter
    rw [dudLookup, hfilter]
    rfl
  case refine_3 =>
    intro dudT cp d rest hfilter
    rw [dudLookup, hfilter]
    rfl
  intro out hout
  rw [heq] at hout
  have hsub := Except.ok.inj hout
  subst hsub
  simp only [List.length_append, List.length_map]

/-- Output of `get_LHS_terms envLhs "CON_A" 6 2022`. -/
def lhsSmallOut : List LhsOut :=
  [{ type := "CONNECTIONPOINT", ID := "CP1", DUID := "UNIT1",
     factor := "1", bidtype := "ENERGY" },
   { type := "CONNECTIONPOINT", ID := "CP2", DUID := "DUID not found",
     factor := "-1", bidtype := "ENERGY" },
   { type := "INTERCONNECTOR", ID := "V-SA", DUID := "V-SA",
     factor := "1", bidtype := "N/A" },
   { type := "REGION", ID := "VIC1", DUID := "VIC1",
     factor := "1", bidtype := "N/A" }]

/-- Witness for C6 on `envLhs`: two connection points (one with a resolved
device, one with the placeholder), one interconnector, one region. -/
theorem lhs_terms_concatenation_witness :
    get_LHS_terms envLhs "CON_A" 6 2022 = .ok lhsSmallOut ∧
    lhsSmallOut.length = 2 + 1 + 1 ∧
    dudLookup [⟨"CP1", "UNIT1"⟩, ⟨"CP1", "UNIT1B"⟩] "CP2" = "DUID not found" ∧
    dudLookup [⟨"CP1", "UNIT1"⟩, ⟨"CP1", "UNIT1B"⟩] "CP1" = "UNIT1" := by
  have h := lhs_terms_concatenation envLhs "CON_A" 6 2022
    [⟨"CON_A", "CP1", "1", "ENERGY"⟩, ⟨"CON_A", "CP2", "-1", "ENERGY"⟩,
     ⟨"OTHER", "CP9", "1", "ENERGY"⟩, ⟨"C", "", "", ""⟩]
    [⟨"CON_A", "V-SA", "1"⟩, ⟨"OTHER", "N-Q", "1"⟩, ⟨"C", "", ""⟩]
    [⟨"CON_A", "VIC1", "1"⟩, ⟨"C", "", ""⟩]
    [⟨"CP1", "UNIT1"⟩, ⟨"CP1", "UNIT1B"⟩, ⟨"C", ""⟩]
    rfl rfl rfl rfl
  exact ⟨h.1, h.2.1 lhsSmallOut h.1,
    h.2.2.1 [⟨"CP1", "UNIT1"⟩, ⟨"CP1", "UNIT1B"⟩] "CP2" rfl,
    h.2.2.2 [⟨"CP1", "UNIT1"⟩, ⟨"CP1", "UNIT1B"⟩] "CP1" ⟨"CP1", "UNIT1"⟩
      [⟨"CP1", "UNIT1B"⟩] rfl⟩

/-! Claim C8. -/

/-- C8: a missing/NA `operation` cell (which `read_csv` parses as `NaN` —
including the literal text `nan`, one of the default NA sentinels) is
rendered by `str(...)` as `"nan"` and coerced to `"-"`; a present operation
string is kept unchanged; and the `operation` field of every output row of
both RHS resolvers is a string that is never `"nan"` (and never null —
the field's type is `String`). -/
theorem operation_coercion (env : Env) (c eid : String) (m y : Nat)
    (t tg : List RhsSrcRow) (ems : List EmsRow)
    (ht : env.genericconstraintrhs m y = .ok t)
    (htg : env.genericequationrhs m y = .ok tg)
    (hems : env.emsmaster m y = .ok ems) :
    (∀ raw, raw ∈ pandasNAStrings → parseCell raw = none) ∧
    (∀ raw, raw ∉ pandasNAStrings → opString (parseCell raw) = raw) ∧
    opString none = "-" ∧
    (∀ op, opString op ≠ "nan") ∧
    (∀ out, get_RHS_terms env c m y = .ok out →
      ∀ o ∈ out, o.operation ≠ "nan") ∧
    (∀ out, get_generic_RHS_func env eid m y = .ok out →
      ∀ o ∈ out, o.operation ≠ "nan") := by
  have hop : ∀ op, opString op ≠ "nan" := by
    intro op
    cases op with
    | none => decide
    | some s =>
      by_cases hs : s = "nan"
      · rw [opString]
        simp only [hs, if_pos]
        decide
      · rw [opString]
        simp only [if_neg hs]
        exact hs
  refine ⟨?_, ?_, rfl, hop, ?_, ?_⟩
  · intro raw hraw
    rw [parseCell, if_pos hraw]
  · intro raw hraw
    have hnan : raw ≠ "nan" := by
      intro hr
      exact hraw (by rw [hr]; decide)
    rw [parseCell, if_neg hraw, opString]
    simp only [if_neg hnan]
  · intro out hout o ho
    rw [get_RHS_terms_eq env c m y t ems ht hems] at hout
    have hsub := Except.ok.inj hout
    subst hsub
    have hmem := mem_sortByTermId _ o ho
    rcases List.mem_map.1 hmem with ⟨r, _, rfl⟩
    exact hop r.operation
  · intro out hout o ho
    rw [get_generic_RHS_func_eq env eid m y tg ems htg hems] at hout
    have hsub := Except.ok.inj hout
    subst hsub
    have hmem := mem_sortByTermId _ o ho
    rcases List.mem_map.1 hmem with ⟨r, _, rfl⟩
    exact hop r.operation

/-- Witness for C8 at concrete cells and on the small environment. -/
theorem operation_coercion_witness :
    parseCell "nan" = none ∧
    opString (parseCell "ADD") = "ADD" ∧
    opString none = "-" ∧
    opString (some "nan") ≠ "nan" ∧
    (⟨1, "SPD_G", "X", "Generic RHS function", "0.5", "ADD"⟩ : RhsOut).operation ≠ "nan" := by
  have h := operation_coercion envRhsSmall "CON_A" "CON_A" 6 2022
    rhsSmallRows rhsSmallRows emsSmall rfl rfl rfl
  exact ⟨h.1 "nan" (by decide), h.2.1 "ADD" (by decide), h.2.2.1,
    h.2.2.2.1 (some "nan"),
    h.2.2.2.2.1 rhsSmallOut rfl ⟨1, "SPD_G", "X", "Generic RHS function", "0.5", "ADD"⟩
      (by decide)⟩

/-- With no matching connection-point row, `get_LHS_terms` reduces to the
interconnector and region blocks and never touches `DUDETAIL`. -/
theorem get_LHS_terms_cp_empty (env : Env) (c : String) (m y : Nat) (t1 : List CPRow)
    (h1 : env.spdconnectionpointconstraint m y = .ok t1)
    (hempty : (dropTrailer t1).filter (fun r => r.genconid = c) = []) :
    get_LHS_terms env c m y =
      Except.bind (env.spdinterconnectorconstraint m y) (fun icT =>
        Except.bind (env.spdregionconstraint m y) (fun regT =>
          pure (((dropTrailer icT).filter (fun r => r.genconid = c)).map (fun r =>
              { type := "INTERCONNECTOR", ID := r.interconnectorid,
                DUID := r.interconnectorid, factor := r.factor,
                bidtype := "N/A" : LhsOut }) ++
            ((dropTrailer regT).filter (fun r => r.genconid = c)).map (fun r =>
              { type := "REGION", ID := r.regionid, DUID := r.regionid,
                factor := r.factor, bidtype := "N/A" : LhsOut })))) := by
  rw [get_LHS_terms, get_mms_table_SPDCONNECTIONPOINTCONSTRAINT, h1]
  show Except.bind _ _ = _
  simp only [Except.bind]
  rw [hempty]
  rfl

/-! Claim C9. -/

/-- C9: the lookup tables are fetched lazily.  When the primary RHS table
has no row matching the identifier, both RHS resolvers return the empty
result without consulting `EMSMASTER` — the result is `.ok []` for *every*
behaviour of the `EMSMASTER` fetch, including failure; likewise, when no
connection-point row matches, `get_LHS_terms` is unchanged under *every*
behaviour of the `DUDETAIL` fetch. -/
theorem lookup_tables_fetched_lazily :
    (∀ (env : Env) (c : String) (m y : Nat) (t : List RhsSrcRow)
        (emsB : Nat → Nat → Except Ferr (List EmsRow)),
      env.genericconstraintrhs m y = .ok t →
      (dropTrailer t).filter (fun r => r.owner_id = c) = [] →
      get_RHS_terms { env with emsmaster := emsB } c m y = .ok []) ∧
    (∀ (env : Env) (eid : String) (m y : Nat) (t : List RhsSrcRow)
        (emsB : Nat → Nat → Except Ferr (List EmsRow)),
      env.genericequationrhs m y = .ok t →
      (dropTrailer t).filter (fun r => r.owner_id = eid) = [] →
      get_generic_RHS_func { env with emsmaster := emsB } eid m y = .ok []) ∧
    (∀ (env : Env) (c : String) (m y : Nat) (t1 : List CPRow)
        (dudB : Nat → Nat → Except Ferr (List DudRow)),
      env.spdconnectionpointconstraint m y = .ok t1 →
      (dropTrailer t1).filter (fun r => r.genconid = c) = [] →
      get_LHS_terms { env with dudetail := dudB } c m y = get_LHS_terms env c m y) := by
  refine ⟨?_, ?_, ?_⟩
  · intro env c m y t emsB ht hempty
    have hproj : ({ env with emsmaster := emsB } : Env).genericconstraintrhs =
      env.genericconstraintrhs := rfl
    rw [get_RHS_terms, get_mms_table_GENERICCONSTRAINTRHS, hproj, ht]
    show (if ((dropTrailer t).filter (fun r => r.owner_id = c)).isEmpty
      then _ else _ : Except Ferr _) = _
    rw [hempty]
    rfl
  · intro env eid m y t emsB ht hempty
    have hproj : ({ env with emsmaster := emsB } : Env).genericequationrhs =
      env.genericequationrhs := rfl
    rw [get_generic_RHS_func, get_mms_table_GENERICEQUATIONRHS, hproj, ht]
    show (if ((dropTrailer t).filter (fun r => r.owner_id = eid)).isEmpty
      then _ else _ : Except Ferr _) = _
    rw [hempty]
    rfl
  · intro env c m y t1 dudB h1 hempty
    have h1' : ({ env with dudetail := dudB } : Env).spdconnectionpointconstraint m y =
        .ok t1 := h1
    rw [get_LHS_terms_cp_empty env c m y t1 h1 hempty,
      get_LHS_terms_cp_empty { env with dudetail := dudB } c m y t1 h1' hempty]

/-- Witness for C9 on `envNoMatch`: both RHS registries have no matching
rows and `EMSMASTER` always fails, yet the resolvers return the empty
result; no connection-point row matches and `DUDETAIL` always fails, yet
the LHS resolver is unaffected. -/
theorem lookup_tables_fetched_lazily_witness :
    get_RHS_terms { envNoMatch with emsmaster := fun _ _ => .error .transientFail }
      "CON_A" 6 2022 = .ok [] ∧
    get_generic_RHS_func { envNoMatch with emsmaster := fun _ _ => .error .notFound }
      "CON_A" 6 2022 = .ok [] ∧
    get_LHS_terms { envNoMatch with dudetail := fun _ _ => .error .notFound }
      "CON_A" 6 2022 = get_LHS_terms envNoMatch "CON_A" 6 2022 := by
  have h := lookup_tables_fetched_lazily
  exact ⟨h.1 envNoMatch "CON_A" 6 2022 [trailerRhs] _ rfl rfl,
    h.2.1 envNoMatch "CON_A" 6 2022 [trailerRhs] _ rfl rfl,
    h.2.2 envNoMatch "CON_A" 6 2022
      [⟨"OTHER", "CP9", "1", "ENERGY"⟩, ⟨"C", "", "", ""⟩] _ rfl rfl⟩

/-! Claim C10. -/

/-- C10: when several lookup rows match the key — several `EMSMASTER` rows
with the same `SPD_ID`, or several `DUDETAIL` rows with the same
`CONNECTIONPOINTID` — the resolved description or device ID is taken from
the first matching row in the table's source order (`df1.iloc[0]` after the
filter): both lookups equal `find?` over the unfiltered table. -/
theorem lookup_first_match_wins :
    (∀ (ems : List EmsRow) (spdid : String),
      emsLookup ems spdid =
        (match ems.find? (fun e => e.spd_id = spdid) with
          | some e => e.description
          | none => "-")) ∧
    (∀ (dud : List DudRow) (cp : String),
      dudLookup dud cp =
        (match dud.find? (fun d => d.connectionpointid = cp) with
          | some d => d.duid
          | none => "DUID not found")) := by
  constructor
  · intro ems spdid
    rw [emsLookup, head?_filter_eq_find?]
    cases hx : List.find? (fun e => decide (e.spd_id = spdid)) ems <;> rfl
  · intro dud cp
    rw [dudLookup, head?_filter_eq_find?]
    cases hx : List.find? (fun d => decide (d.connectionpointid = cp)) dud <;> rfl

end NEM
